import Mathlib

/-!
Display adapter over the firmware graphics output protocol (src/dev/gop.c)

A shallow embedding of `gop.c`.  The process-wide statics of the C file
(`gop`, `backbuffer`, `num_modes`, and the function-local static `next_mode`)
are gathered in one `State` record that every operation receives and returns.

Machine integers are natural numbers; every C expression of type `UINT32` is
reduced modulo `2^32`, every `UINTN` expression modulo `2^64`.

Memory: a buffer is a map from slot index (one slot = one `UINT32` pixel) to
the value stored there.  The C code performs no bounds checks and neither does
the model: `buf[i] = v` updates slot `i` whatever `i` is.  The shadow buffer
and the hardware framebuffer are separate buffers.

Loops whose counter is a `UINT32` are run with explicit fuel (`loopU32`), the
counter wrapping modulo `2^32` exactly as `++i` does; `none` means that the fuel
ran out before the loop condition became false.

Firmware and allocator calls are oracles: each operation receives a `Firmware`
record that says how the platform answers the calls made during that operation.
-/

namespace Gop

/-! Data model -/

/-- Current-mode metadata (`gop->Mode->Info`); all three fields are `UINT32`. -/
structure EFI_GRAPHICS_OUTPUT_MODE_INFORMATION where
  HorizontalResolution : Nat
  VerticalResolution : Nat
  PixelsPerScanLine : Nat

/-- The record `*gop->Mode`.  `MaxMode` and `Mode` are `UINT32`, `FrameBufferSize`
is a `UINTN`.  `FrameBufferBase` is represented by the hardware buffer `State.fb`. -/
structure EFI_GRAPHICS_OUTPUT_PROTOCOL_MODE where
  MaxMode : Nat
  Mode : Nat
  Info : EFI_GRAPHICS_OUTPUT_MODE_INFORMATION
  FrameBufferSize : Nat

/-- Range of the machine types of the mode record: `UINT32` fields below `2^32`,
the `UINTN` field below `2^64`. -/
def EFI_GRAPHICS_OUTPUT_PROTOCOL_MODE.wf (m : EFI_GRAPHICS_OUTPUT_PROTOCOL_MODE) : Prop :=
  m.MaxMode < 2 ^ 32 ∧ m.Mode < 2 ^ 32 ∧
  m.Info.HorizontalResolution < 2 ^ 32 ∧ m.Info.VerticalResolution < 2 ^ 32 ∧
  m.Info.PixelsPerScanLine < 2 ^ 32 ∧ m.FrameBufferSize < 2 ^ 64

instance (m : EFI_GRAPHICS_OUTPUT_PROTOCOL_MODE) : Decidable m.wf := by
  unfold EFI_GRAPHICS_OUTPUT_PROTOCOL_MODE.wf
  infer_instance

/-- A pixel buffer: slot index to stored 32-bit value. -/
abbrev Buffer := Nat → Nat

/-- The assignment `buf[i] = v`. -/
def store (buf : Buffer) (i v : Nat) : Buffer :=
  fun k => if k = i then v else buf k

/-- Process-wide state of the adapter after `gop_init`.
* `gop` is `*gop->Mode`, `fb` the memory at `gop->Mode->FrameBufferBase`;
* `backbuffer` is the memory behind the static pointer `backbuffer`, and
  `backbuffer_size` the byte count that was passed to `AllocatePool` for it;
* `num_modes` is the static of that name, `next_mode` the static local of
  `gop_next_mode`;
* `setmode_log` lists, oldest first, the mode numbers passed to `gop->SetMode`. -/
structure State where
  gop : EFI_GRAPHICS_OUTPUT_PROTOCOL_MODE
  fb : Buffer
  backbuffer : Buffer
  backbuffer_size : Nat
  num_modes : Nat
  next_mode : Nat
  setmode_log : List Nat

/-- The two items of the firmware headers that `gop.c` uses and does not define:
the `EFI_ERROR` test on a status word and the status code `EFI_NOT_STARTED`. -/
structure EfiHeaders where
  EFI_ERROR : Nat → Bool
  EFI_NOT_STARTED : Nat

/-- The values of the UEFI standard on a 64-bit platform: a status is an error
when its top bit is set, and `EFI_NOT_STARTED` is error number 19. -/
def uefi64 : EfiHeaders where
  EFI_ERROR := fun s => decide (2 ^ 63 ≤ s)
  EFI_NOT_STARTED := 2 ^ 63 + 19

/-- What `BS->LocateProtocol` hands back: a status, and (behind the returned
pointer) the mode record and the hardware framebuffer. -/
structure LocateResult where
  status : Nat
  Mode : EFI_GRAPHICS_OUTPUT_PROTOCOL_MODE
  fb : Buffer

/-- What `gop->SetMode` leaves behind: a status, the mode record that is current
after the call and the hardware framebuffer of that mode. -/
structure SetModeResult where
  status : Nat
  Mode : EFI_GRAPHICS_OUTPUT_PROTOCOL_MODE
  fb : Buffer

/-- Answers of the platform during one operation of the adapter.
`AllocatePool n` is the (arbitrary) content of a fresh block of `n` bytes,
`QueryMode k` the status of a mode-info query on mode `k`, `SetMode k` the effect
of a request to switch to mode `k`. -/
structure Firmware where
  LocateProtocol : LocateResult
  AllocatePool : Nat → Buffer
  QueryMode : Nat → Nat
  SetMode : Nat → SetModeResult

/-- How a call that may stop the machine ends. -/
inductive Outcome (α : Type) where
  | halted : Outcome α
  | returned : α → Outcome α

/-! Loops -/

/-- The loop `for (UINT32 i = start; i < bound; ++i) body`, run with fuel.
The comparison is made on the mathematical values (the counter is widened when
`bound` is a `UINTN`), the increment wraps modulo `2^32`. -/
def loopU32 {σ : Type} (bound : Nat) (body : Nat → σ → Option σ) : Nat → Nat → σ → Option σ
  | 0, i, s => if i < bound then none else some s
  | fuel + 1, i, s =>
    if i < bound then (body i s).bind (loopU32 bound body fuel ((i + 1) % 2 ^ 32)) else some s

/-! Geometry queries -/

/-- Source `gop_get_width`. -/
def gop_get_width (st : State) : Nat := st.gop.Info.HorizontalResolution

/-- Source `gop_get_height`. -/
def gop_get_height (st : State) : Nat := st.gop.Info.VerticalResolution

/-- Source `gop_get_addr`. -/
def gop_get_addr (st : State) : Buffer := st.backbuffer

/-- Source `gop_get_pitch`: `4*gop->Mode->Info->PixelsPerScanLine` in `UINT32`. -/
def gop_get_pitch (st : State) : Nat := (4 * st.gop.Info.PixelsPerScanLine) % 2 ^ 32

/-- Source `gop_get_size`: `gop_get_pitch()*gop_get_height()` in `UINT32`. -/
def gop_get_size (st : State) : Nat := (gop_get_pitch st * gop_get_height st) % 2 ^ 32

/-- Source `gop_get_index`: `x+y*(gop_get_pitch()/4)` in `UINT32`. -/
def gop_get_index (st : State) (x y : Nat) : Nat :=
  (x + (y * (gop_get_pitch st / 4)) % 2 ^ 32) % 2 ^ 32

/-! Buffer operations -/

/-- Source `clear_backbuffer`. -/
def clear_backbuffer (fuel : Nat) (st : State) : Option State :=
  (loopU32 (st.gop.FrameBufferSize / 4) (fun i bb => some (store bb i 0)) fuel 0
    st.backbuffer).map (fun bb => { st with backbuffer := bb })

/-- Source `gop_swap_buffers_at`.  The same fuel bounds each of the two loops. -/
def gop_swap_buffers_at (fuel : Nat) (st : State) (start_x start_y end_x end_y : Nat) :
    Option State :=
  (loopU32 end_y
    (fun y fb =>
      loopU32 end_x
        (fun x fb =>
          let pixel := st.backbuffer (gop_get_index st x y)
          some (store fb (gop_get_index st x y) pixel))
        fuel start_x fb)
    fuel start_y st.fb).map (fun fb => { st with fb := fb })

/-- Source `gop_swap_buffers`. -/
def gop_swap_buffers (fuel : Nat) (st : State) : Option State :=
  (loopU32 (st.gop.FrameBufferSize / 4) (fun i fb => some (store fb i (st.backbuffer i))) fuel 0
    st.fb).map (fun fb => { st with fb := fb })

/-! Initialisation and mode cycling -/

/-- Modelled from the spec: `halt()` is declared outside `gop.c`; the spec says that
the process halts, with no recovery and no return to the caller. -/
def halt {α : Type} : Outcome α := Outcome.halted

/-- Source `get_gop`. -/
def get_gop (efi : EfiHeaders) (fw : Firmware) : Outcome LocateResult :=
  if efi.EFI_ERROR fw.LocateProtocol.status then halt else Outcome.returned fw.LocateProtocol

/-- Source `gop_init`, run from process start (`num_modes = 0`, `next_mode = 1`, no call of
`SetMode` yet).  The `Print` calls are not modelled; the status left by `SetMode`
only selects whether the warning is printed. -/
def gop_init (efi : EfiHeaders) (fw : Firmware) (fuel : Nat) : Option (Outcome State) :=
  match get_gop efi fw with
  | Outcome.halted => some Outcome.halted
  | Outcome.returned g =>
    let st0 : State :=
      { gop := g.Mode
        fb := g.fb
        backbuffer := fw.AllocatePool g.Mode.FrameBufferSize
        backbuffer_size := g.Mode.FrameBufferSize
        num_modes := 0
        next_mode := 1
        setmode_log := [] }
    match clear_backbuffer fuel st0 with
    | none => none
    | some st1 =>
      let status := fw.QueryMode st1.gop.Mode
      let st2 : State :=
        if status = efi.EFI_NOT_STARTED then
          { st1 with
            gop := (fw.SetMode 0).Mode
            fb := (fw.SetMode 0).fb
            setmode_log := st1.setmode_log ++ [0] }
        else st1
      some (Outcome.returned { st2 with num_modes := st2.gop.MaxMode })

/-- Source `gop_next_mode`: `SetMode(next_mode++)`, wrap of the cursor, then
`FreePool`, `AllocatePool` with the now current framebuffer size, and
`clear_backbuffer`. -/
def gop_next_mode (fw : Firmware) (fuel : Nat) (st : State) : Option State :=
  let r := fw.SetMode st.next_mode
  let incremented := (st.next_mode + 1) % 2 ^ 64
  let cursor := if incremented ≥ st.num_modes then 0 else incremented
  clear_backbuffer fuel
    { st with
      gop := r.Mode
      fb := r.fb
      next_mode := cursor
      setmode_log := st.setmode_log ++ [st.next_mode]
      backbuffer := fw.AllocatePool r.Mode.FrameBufferSize
      backbuffer_size := r.Mode.FrameBufferSize }

/-- Runs `gop_next_mode` once per firmware record of the list, in order. -/
def gop_next_mode_seq (fuel : Nat) : List Firmware → State → Option State
  | [], st => some st
  | fw :: fws, st => (gop_next_mode fw fuel st).bind (gop_next_mode_seq fuel fws)

/-! Concrete inputs used in the examples -/

/-- A mode record of `w × h` visible pixels, `pps` slots per scanline and a
framebuffer of `size` bytes, mode 0 of `maxMode`. -/
def mkMode (maxMode w h pps size : Nat) : EFI_GRAPHICS_OUTPUT_PROTOCOL_MODE :=
  { MaxMode := maxMode
    Mode := 0
    Info := { HorizontalResolution := w, VerticalResolution := h, PixelsPerScanLine := pps }
    FrameBufferSize := size }

/-- A state in mode `m` whose shadow buffer holds `bbv` and whose hardware
framebuffer holds `fbv` in every slot. -/
def mkState (m : EFI_GRAPHICS_OUTPUT_PROTOCOL_MODE) (bbv fbv : Nat) : State :=
  { gop := m
    fb := fun _ => fbv
    backbuffer := fun _ => bbv
    backbuffer_size := m.FrameBufferSize
    num_modes := m.MaxMode
    next_mode := 1
    setmode_log := [] }

/-- The 4 × 4 example of the specification: 4 slots per row, 64 bytes, shadow
buffer filled with `0xFF`, hardware framebuffer filled with `0x00`. -/
def example4x4 : State := mkState (mkMode 1 4 4 4 64) 255 0

/-! Further inputs and proof-side definitions -/

/-- The effect of `n` consecutive loop bodies, for the counter values `i, i+1, ..., i+n-1`. -/
def iterRange {σ : Type} (f : Nat → σ → σ) : Nat → Nat → σ → σ
  | 0, _, s => s
  | n + 1, i, s => iterRange f n (i + 1) (f i s)

/-- The state carried by an outcome, if the call returned. -/
def Outcome.state? {α : Type} : Outcome α → Option α
  | Outcome.halted => none
  | Outcome.returned a => some a

/-- A mode of 32768 × 32768 pixels, 32768 slots per scanline, 4 GiB of framebuffer. -/
def mode32768 : State := mkState (mkMode 1 32768 32768 32768 (2 ^ 32)) 0 0

/-- A mode of 1048576 slots per scanline and 8192 rows. -/
def modeWide : State := mkState (mkMode 1 1048576 8192 1048576 (2 ^ 35)) 0 0

/-- A platform with a single mode (4 × 4, 64 bytes): the lookup and the mode query
succeed, fresh memory holds `0xAA`, and a request for any mode other than 0 is
refused with `EFI_UNSUPPORTED` and leaves mode 0 current. -/
def singleModeFirmware : Firmware :=
  { LocateProtocol := { status := 0, Mode := mkMode 1 4 4 4 64, fb := fun _ => 0 }
    AllocatePool := fun _ _ => 170
    QueryMode := fun _ => 0
    SetMode := fun k =>
      { status := if k = 0 then 0 else 2 ^ 63 + 3
        Mode := mkMode 1 4 4 4 64
        fb := fun _ => 0 } }

/-- A platform whose graphics output is not started when `gop_init` runs: the mode
record found by the lookup reports 16 bytes of framebuffer, the mode query answers
`EFI_NOT_STARTED`, and setting mode 0 brings up a 4 × 4 mode of 64 bytes. -/
def notStartedFirmware : Firmware :=
  { LocateProtocol := { status := 0, Mode := mkMode 1 2 2 2 16, fb := fun _ => 0 }
    AllocatePool := fun _ _ => 170
    QueryMode := fun _ => 2 ^ 63 + 19
    SetMode := fun _ => { status := 0, Mode := mkMode 1 4 4 4 64, fb := fun _ => 0 } }

/-- A platform with two modes: mode 0 is 4 × 4 (64 bytes), mode 1 is 8 × 4 with 8 slots
per scanline (128 bytes); the mode query answers `queryStatus`, fresh memory holds
`0xAA`, and a request for a mode that does not exist is refused, with mode 0 current afterwards. -/
def twoModeFirmware (queryStatus : Nat) : Firmware :=
  { LocateProtocol := { status := 0, Mode := mkMode 2 4 4 4 64, fb := fun _ => 0 }
    AllocatePool := fun _ _ => 170
    QueryMode := fun _ => queryStatus
    SetMode := fun k =>
      if k = 1 then
        { status := 0, Mode := { mkMode 2 8 4 8 128 with Mode := 1 }, fb := fun _ => 0 }
      else
        { status := if k = 0 then 0 else 2 ^ 63 + 3, Mode := mkMode 2 4 4 4 64, fb := fun _ => 0 } }

/-- A platform on which the capability lookup fails with `EFI_NOT_FOUND`. -/
def noGopFirmware : Firmware :=
  { singleModeFirmware with
    LocateProtocol := { status := 2 ^ 63 + 14, Mode := mkMode 0 0 0 0 0, fb := fun _ => 0 } }

/-- A mode of 65536 × 65536 pixels whose framebuffer takes 16 GiB: 2^32 slots. -/
def mode16GiB : State := mkState (mkMode 1 65536 65536 65536 (2 ^ 34)) 0 0

/-- A platform whose lookup succeeds with a mode of 65536 × 65536 pixels and a
framebuffer of 16 GiB (2^32 slots).  The mode query answers `queryStatus` and a call of
`SetMode` leaves `retry`, both arbitrary. -/
def hugeFirmware (queryStatus : Nat) (retry : SetModeResult) : Firmware :=
  { LocateProtocol :=
      { status := 0, Mode := mkMode 1 65536 65536 65536 (2 ^ 34), fb := fun _ => 0 }
    AllocatePool := fun _ _ => 170
    QueryMode := fun _ => queryStatus
    SetMode := fun _ => retry }

/-- A 3 × 2 mode padded to 4 slots per scanline (32 bytes); shadow buffer filled with
`0xFF`, hardware framebuffer with `0x00`. -/
def paddedState : State := mkState (mkMode 1 3 2 4 32) 255 0

/-! Lemmas on buffers, loops and the operations -/

theorem store_same (buf : Buffer) (i v : Nat) : store buf i v i = v := by
  simp [store]

theorem store_other (buf : Buffer) (i v k : Nat) (h : k ≠ i) : store buf i v k = buf k := by
  simp [store, h]

/-- A loop of copies `dst[g j] = src[g j]` keeps, at every slot, the property
"this slot already holds the source value". -/
theorem copy_step_keeps (src : Buffer) (g : Nat → Nat) (k j : Nat) (t : Buffer)
    (ht : t k = src k) : store t (g j) (src (g j)) k = src k := by
  by_cases h : k = g j
  · subst h; exact store_same t _ _
  · rw [store_other t _ _ k h]; exact ht

/-- A property kept by every loop body of the range is kept by the whole range. -/
theorem iterRange_preserves {σ : Type} (f : Nat → σ → σ) (Q : σ → Prop) :
    ∀ (n i : Nat) (s : σ), (∀ j t, i ≤ j → j < i + n → Q t → Q (f j t)) → Q s →
      Q (iterRange f n i s) := by
  intro n
  induction n with
  | zero => intro i s _ hs; exact hs
  | succ n ih =>
    intro i s hstep hs
    apply ih (i + 1) (f i s)
    · intro j t h1 h2 ht
      exact hstep j t (by omega) (by omega) ht
    · exact hstep i s (le_refl i) (by omega) hs

/-- A property kept by every loop body of the range, and established by the body of one
counter value in the range, holds after the whole range. -/
theorem iterRange_establishes {σ : Type} (f : Nat → σ → σ) (Q : σ → Prop) :
    ∀ (n i : Nat) (s : σ), (∀ j t, i ≤ j → j < i + n → Q t → Q (f j t)) →
      (∃ j, i ≤ j ∧ j < i + n ∧ ∀ t, Q (f j t)) → Q (iterRange f n i s) := by
  intro n
  induction n with
  | zero => intro i s _ ⟨j, h1, h2, _⟩; omega
  | succ n ih =>
    intro i s hstep ⟨j, h1, h2, hj⟩
    have hstep2 : ∀ j t, i + 1 ≤ j → j < i + 1 + n → Q t → Q (f j t) := by
      intro j t h1 h2 ht
      exact hstep j t (by omega) (by omega) ht
    by_cases hji : j = i
    · subst hji
      exact iterRange_preserves f Q n (j + 1) (f j s) hstep2 (hj s)
    · exact ih (i + 1) (f i s) hstep2 ⟨j, by omega, by omega, hj⟩

/-- A loop whose bound does not fit the 32-bit counter never returns: the counter wraps
before it can reach the bound. -/
theorem loopU32_diverges {σ : Type} (bound : Nat) (body : Nat → σ → Option σ)
    (hb : 2 ^ 32 ≤ bound) :
    ∀ (fuel i : Nat) (s : σ), i < 2 ^ 32 → loopU32 bound body fuel i s = none := by
  intro fuel
  induction fuel with
  | zero =>
    intro i s hi
    have : i < bound := by omega
    simp [loopU32, this]
  | succ fuel ih =>
    intro i s hi
    have hlt : i < bound := by omega
    cases hbody : body i s with
    | none => simp [loopU32, hlt, hbody]
    | some t =>
      simp only [loopU32, hlt, hbody, if_true, Option.some_bind]
      exact ih _ t (Nat.mod_lt _ (by norm_num))

/-- When the bound fits the counter and the body always returns, a loop that returns has
run its body once for each counter value from the start up to the bound. -/
theorem loopU32_result {σ : Type} (bound : Nat) (body : Nat → σ → Option σ) (f : Nat → σ → σ)
    (hb : bound < 2 ^ 32) (hbody : ∀ i s, i < bound → body i s = some (f i s)) :
    ∀ (fuel i : Nat) (s r : σ), loopU32 bound body fuel i s = some r →
      r = iterRange f (bound - i) i s := by
  intro fuel
  induction fuel with
  | zero =>
    intro i s r h
    by_cases hlt : i < bound
    · simp [loopU32, hlt] at h
    · simp only [loopU32, hlt, if_false, Option.some.injEq] at h
      have : bound - i = 0 := by omega
      rw [this]; exact h.symm
  | succ fuel ih =>
    intro i s r h
    by_cases hlt : i < bound
    · have hmod : (i + 1) % 2 ^ 32 = i + 1 := Nat.mod_eq_of_lt (by omega)
      simp only [loopU32, hlt, hbody i s hlt, if_true, Option.some_bind, hmod] at h
      have hsplit : bound - i = (bound - (i + 1)) + 1 := by omega
      rw [hsplit]
      exact ih (i + 1) (f i s) r h
    · simp only [loopU32, hlt, if_false, Option.some.injEq] at h
      have : bound - i = 0 := by omega
      rw [this]; exact h.symm

/-- When the bound fits the counter and the body always returns, the loop returns as soon
as the fuel covers the distance from the start to the bound. -/
theorem loopU32_terminates {σ : Type} (bound : Nat) (body : Nat → σ → Option σ) (f : Nat → σ → σ)
    (hb : bound < 2 ^ 32) (hbody : ∀ i s, i < bound → body i s = some (f i s)) :
    ∀ (fuel i : Nat) (s : σ), bound - i ≤ fuel →
      loopU32 bound body fuel i s = some (iterRange f (bound - i) i s) := by
  intro fuel
  induction fuel with
  | zero =>
    intro i s h
    have hlt : ¬ i < bound := by omega
    have : bound - i = 0 := by omega
    simp [loopU32, hlt, this, iterRange]
  | succ fuel ih =>
    intro i s h
    by_cases hlt : i < bound
    · have hmod : (i + 1) % 2 ^ 32 = i + 1 := Nat.mod_eq_of_lt (by omega)
      simp only [loopU32, hlt, hbody i s hlt, if_true, Option.some_bind, hmod]
      have hsplit : bound - i = (bound - (i + 1)) + 1 := by omega
      rw [hsplit]
      exact ih (i + 1) (f i s) (by omega)
    · have : bound - i = 0 := by omega
      simp [loopU32, hlt, this, iterRange]

/-- General form of the region flush: the rectangle only has to fit the `UINT32` arguments. -/
theorem gop_swap_buffers_at_spec (st : State) (x0 y0 x1 y1 fuel : Nat)
    (hx1 : x1 < 2 ^ 32) (hy1 : y1 < 2 ^ 32) (hfx : x1 - x0 ≤ fuel) (hfy : y1 - y0 ≤ fuel) :
    ∃ fb', gop_swap_buffers_at fuel st x0 y0 x1 y1 = some { st with fb := fb' } ∧
      ∀ k,
        ((∃ x y, x0 ≤ x ∧ x < x1 ∧ y0 ≤ y ∧ y < y1 ∧ gop_get_index st x y = k) →
          fb' k = st.backbuffer k) ∧
        ((¬ ∃ x y, x0 ≤ x ∧ x < x1 ∧ y0 ≤ y ∧ y < y1 ∧ gop_get_index st x y = k) →
          fb' k = st.fb k) := by
  let g : Nat → Nat → Buffer → Buffer := fun y x fb =>
    store fb (gop_get_index st x y) (st.backbuffer (gop_get_index st x y))
  let F : Nat → Buffer → Buffer := fun y fb => iterRange (g y) (x1 - x0) x0 fb
  have hinner : ∀ y fb, y < y1 →
      loopU32 x1 (fun x fb =>
          let pixel := st.backbuffer (gop_get_index st x y)
          some (store fb (gop_get_index st x y) pixel)) fuel x0 fb = some (F y fb) := by
    intro y fb _
    exact loopU32_terminates x1 _ (g y) hx1 (fun _ _ _ => rfl) fuel x0 fb hfx
  have houter := loopU32_terminates y1 _ F hy1 hinner fuel y0 st.fb hfy
  refine ⟨iterRange F (y1 - y0) y0 st.fb, ?_, ?_⟩
  · unfold gop_swap_buffers_at
    rw [houter]; rfl
  · intro k
    constructor
    · rintro ⟨x, y, hx0, hxlt, hy0, hylt, hk⟩
      have hin : ∀ y j t, t k = st.backbuffer k → g y j t k = st.backbuffer k :=
        fun y j t ht => copy_step_keeps st.backbuffer (fun x => gop_get_index st x y) k j t ht
      have hout : ∀ y t, t k = st.backbuffer k → F y t k = st.backbuffer k :=
        fun y t ht => iterRange_preserves (g y) (fun b => b k = st.backbuffer k) _ _ t
          (fun j u _ _ hu => hin y j u hu) ht
      refine iterRange_establishes F (fun b => b k = st.backbuffer k) _ _ st.fb
        (fun j t _ _ ht => hout j t ht) ⟨y, hy0, by omega, fun t => ?_⟩
      refine iterRange_establishes (g y) (fun b => b k = st.backbuffer k) _ _ t
        (fun j u _ _ hu => hin y j u hu) ⟨x, hx0, by omega, fun u => ?_⟩
      show store u (gop_get_index st x y) (st.backbuffer (gop_get_index st x y)) k
        = st.backbuffer k
      rw [← hk]; exact store_same u _ _
    · intro hno
      refine iterRange_preserves F (fun b => b k = st.fb k) _ _ st.fb ?_ rfl
      intro y t hy0 hylt ht
      refine iterRange_preserves (g y) (fun b => b k = st.fb k) _ _ t ?_ ht
      intro x u hx0 hxlt hu
      have hne : k ≠ gop_get_index st x y := by
        intro hk
        exact hno ⟨x, y, hx0, by omega, hy0, by omega, hk.symm⟩
      show store u (gop_get_index st x y) (st.backbuffer (gop_get_index st x y)) k = st.fb k
      rw [store_other u _ _ k hne]; exact hu

/-- Post-condition of a loop `for (i = 0; i < bound; ++i) dst[i] = src[i]`, whatever the
fuel: if it returns, every slot below the bound holds the source value. -/
theorem fill_loop_post (bound : Nat) (src : Buffer) (fuel : Nat) (s r : Buffer)
    (h : loopU32 bound (fun i b => some (store b i (src i))) fuel 0 s = some r) :
    ∀ i, i < bound → r i = src i := by
  intro i hi
  by_cases hb : bound < 2 ^ 32
  · have hr := loopU32_result bound _ (fun i b => store b i (src i)) hb (fun _ _ _ => rfl)
      fuel 0 s r h
    rw [hr]
    refine iterRange_establishes _ (fun b => b i = src i) (bound - 0) 0 s ?_
      ⟨i, Nat.zero_le i, by omega, ?_⟩
    · intro j t _ _ ht
      exact copy_step_keeps src (fun x => x) i j t ht
    · intro t
      exact store_same t i (src i)
  · have hnone := loopU32_diverges bound (fun i b => some (store b i (src i))) (by omega)
      fuel 0 s (by norm_num)
    rw [hnone] at h
    exact absurd h (by simp)

/-- A fill loop whose bound fits the 32-bit counter returns once the fuel covers the bound. -/
theorem fill_loop_returns (bound : Nat) (src : Buffer) (fuel : Nat) (s : Buffer)
    (hb : bound < 2 ^ 32) (hf : bound ≤ fuel) :
    ∃ r, loopU32 bound (fun i b => some (store b i (src i))) fuel 0 s = some r :=
  ⟨_, loopU32_terminates bound _ (fun i b => store b i (src i)) hb (fun _ _ _ => rfl)
    fuel 0 s (by omega)⟩

/-- A fill loop whose bound does not fit the 32-bit counter never returns. -/
theorem fill_loop_diverges (bound : Nat) (src : Buffer) (fuel : Nat) (s : Buffer)
    (hb : 2 ^ 32 ≤ bound) :
    loopU32 bound (fun i b => some (store b i (src i))) fuel 0 s = none :=
  loopU32_diverges bound _ hb fuel 0 s (by norm_num)

/-- What `clear_backbuffer` returns: the same state with a new shadow buffer whose
slots below `FrameBufferSize/4` are zero. -/
theorem clear_backbuffer_some (fuel : Nat) (st st' : State)
    (h : clear_backbuffer fuel st = some st') :
    ∃ bb, st' = { st with backbuffer := bb } ∧
      ∀ i, i < st.gop.FrameBufferSize / 4 → bb i = 0 := by
  unfold clear_backbuffer at h
  cases hl : loopU32 (st.gop.FrameBufferSize / 4) (fun i bb => some (store bb i 0)) fuel 0
      st.backbuffer with
  | none => rw [hl] at h; exact absurd h (by simp)
  | some bb =>
    rw [hl] at h
    simp only [Option.map_some', Option.some.injEq] at h
    exact ⟨bb, h.symm, fill_loop_post _ (fun _ => 0) fuel st.backbuffer bb hl⟩

/-- When the slot count fits the counter, `clear_backbuffer` returns. -/
theorem clear_backbuffer_returns (fuel : Nat) (st : State)
    (hb : st.gop.FrameBufferSize / 4 < 2 ^ 32) (hf : st.gop.FrameBufferSize / 4 ≤ fuel) :
    ∃ st', clear_backbuffer fuel st = some st' := by
  obtain ⟨r, hr⟩ := fill_loop_returns _ (fun _ => 0) fuel st.backbuffer hb hf
  refine ⟨{ st with backbuffer := r }, ?_⟩
  unfold clear_backbuffer
  rw [hr]; rfl

/-- The pitch is a multiple of four: `gop_get_pitch` is `4 * (PixelsPerScanLine mod 2^30)`. -/
theorem gop_get_pitch_div4 (st : State) : 4 * (gop_get_pitch st / 4) = gop_get_pitch st := by
  unfold gop_get_pitch
  omega

/-- Without 32-bit wrap the byte size is four times the slot count
`(pitch/4) * height`. -/
theorem gop_get_size_nowrap (st : State) (h : gop_get_pitch st * gop_get_height st < 2 ^ 32) :
    gop_get_size st = 4 * (gop_get_pitch st / 4 * gop_get_height st) := by
  rw [← Nat.mul_assoc, gop_get_pitch_div4 st]
  unfold gop_get_size
  exact Nat.mod_eq_of_lt h

/-- The fields that `gop_next_mode` leaves behind, read off its definition. -/
theorem gop_next_mode_some (fw : Firmware) (fuel : Nat) (st st' : State)
    (h : gop_next_mode fw fuel st = some st') :
    st'.gop = (fw.SetMode st.next_mode).Mode ∧
    st'.backbuffer_size = (fw.SetMode st.next_mode).Mode.FrameBufferSize ∧
    st'.num_modes = st.num_modes ∧
    st'.next_mode
      = (if (st.next_mode + 1) % 2 ^ 64 ≥ st.num_modes then 0 else (st.next_mode + 1) % 2 ^ 64) ∧
    st'.setmode_log = st.setmode_log ++ [st.next_mode] ∧
    ∀ i, i < (fw.SetMode st.next_mode).Mode.FrameBufferSize / 4 → st'.backbuffer i = 0 := by
  unfold gop_next_mode at h
  obtain ⟨bb, hst, hz⟩ := clear_backbuffer_some fuel _ st' h
  subst hst
  exact ⟨rfl, rfl, rfl, rfl, rfl, hz⟩

/-- With at least one mode and the cursor in range, one call of `gop_next_mode` moves
the cursor to its successor modulo the mode count. -/
theorem gop_next_mode_cursor (fw : Firmware) (fuel : Nat) (st st' : State)
    (h : gop_next_mode fw fuel st = some st')
    (hc : st.next_mode < st.num_modes) (hn : st.num_modes < 2 ^ 64) :
    st'.next_mode = (st.next_mode + 1) % st.num_modes ∧ st'.num_modes = st.num_modes := by
  obtain ⟨_, _, hnum, hcur, _, _⟩ := gop_next_mode_some fw fuel st st' h
  refine ⟨?_, hnum⟩
  rw [hcur]
  have hmod : (st.next_mode + 1) % 2 ^ 64 = st.next_mode + 1 := Nat.mod_eq_of_lt (by omega)
  rw [hmod]
  by_cases hwrap : st.next_mode + 1 ≥ st.num_modes
  · have heq : st.next_mode + 1 = st.num_modes := by omega
    rw [if_pos hwrap, heq, Nat.mod_self]
  · rw [if_neg hwrap, Nat.mod_eq_of_lt (by omega)]

/-- After a run of `gop_next_mode` calls the cursor has advanced, modulo the mode
count, by the number of calls. -/
theorem gop_next_mode_seq_cursor (fuel : Nat) :
    ∀ (fws : List Firmware) (st st' : State), gop_next_mode_seq fuel fws st = some st' →
      st.next_mode < st.num_modes → st.num_modes < 2 ^ 64 →
      st'.next_mode = (st.next_mode + fws.length) % st.num_modes ∧
      st'.num_modes = st.num_modes := by
  intro fws
  induction fws with
  | nil =>
    intro st st' h hc _
    simp only [gop_next_mode_seq, Option.some.injEq] at h
    subst h
    simp [Nat.mod_eq_of_lt hc]
  | cons fw fws ih =>
    intro st st' h hc hn
    simp only [gop_next_mode_seq] at h
    cases h1 : gop_next_mode fw fuel st with
    | none => rw [h1] at h; exact absurd h (by simp)
    | some st1 =>
      rw [h1, Option.some_bind] at h
      obtain ⟨hcur1, hnum1⟩ := gop_next_mode_cursor fw fuel st st1 h1 hc hn
      have hpos : 0 < st.num_modes := by omega
      have hc1 : st1.next_mode < st1.num_modes := by
        rw [hcur1, hnum1]; exact Nat.mod_lt _ hpos
      obtain ⟨hcur, hnum⟩ := ih st1 st' h hc1 (by rw [hnum1]; exact hn)
      refine ⟨?_, by rw [hnum, hnum1]⟩
      rw [hcur, hcur1, hnum1, List.length_cons, Nat.mod_add_mod]
      congr 1
      omega

/-- With two or more modes the cursor is back at its starting value 1 after a full
cycle of `num_modes` calls. -/
theorem gop_next_mode_cycle (fuel : Nat) (fws : List Firmware) (st st' : State)
    (h : gop_next_mode_seq fuel fws st = some st') (hlen : fws.length = st.num_modes)
    (hstart : st.next_mode = 1) (hN : 2 ≤ st.num_modes) (hn : st.num_modes < 2 ^ 64) :
    st'.next_mode = 1 := by
  obtain ⟨hcur, _⟩ := gop_next_mode_seq_cursor fuel fws st st' h (by omega) hn
  rw [hcur, hlen, hstart, Nat.add_mod_right]
  exact Nat.mod_eq_of_lt (by omega)

/-- The sibling path: after `gop_next_mode` the shadow buffer has the size that the
now current mode reports. -/
theorem gop_next_mode_size (fw : Firmware) (fuel : Nat) (st st' : State)
    (h : gop_next_mode fw fuel st = some st') :
    st'.backbuffer_size = st'.gop.FrameBufferSize := by
  obtain ⟨hg, hs, _⟩ := gop_next_mode_some fw fuel st st' h
  rw [hs, hg]

/-- The state that `gop_init` hands to `clear_backbuffer` after a successful lookup. -/
theorem gop_init_eq (efi : EfiHeaders) (fw : Firmware) (fuel : Nat)
    (he : efi.EFI_ERROR fw.LocateProtocol.status = false) :
    gop_init efi fw fuel =
      (clear_backbuffer fuel
        { gop := fw.LocateProtocol.Mode
          fb := fw.LocateProtocol.fb
          backbuffer := fw.AllocatePool fw.LocateProtocol.Mode.FrameBufferSize
          backbuffer_size := fw.LocateProtocol.Mode.FrameBufferSize
          num_modes := 0
          next_mode := 1
          setmode_log := [] }).map
        (fun st1 =>
          let st2 : State :=
            if fw.QueryMode st1.gop.Mode = efi.EFI_NOT_STARTED then
              { st1 with
                gop := (fw.SetMode 0).Mode
                fb := (fw.SetMode 0).fb
                setmode_log := st1.setmode_log ++ [0] }
            else st1
          Outcome.returned { st2 with num_modes := st2.gop.MaxMode }) := by
  unfold gop_init get_gop halt
  simp only [he, Bool.false_eq_true, if_false]
  generalize clear_backbuffer fuel _ = r
  cases r <;> rfl

/-- The path of `gop_init` without the retry: the shadow buffer has the size that the
current mode reports. -/
theorem gop_init_size (efi : EfiHeaders) (fw : Firmware) (fuel : Nat) (st : State)
    (h : gop_init efi fw fuel = some (Outcome.returned st))
    (hq : fw.QueryMode fw.LocateProtocol.Mode.Mode ≠ efi.EFI_NOT_STARTED) :
    st.backbuffer_size = st.gop.FrameBufferSize := by
  unfold gop_init get_gop halt at h
  cases he : efi.EFI_ERROR fw.LocateProtocol.status with
  | true => simp [he] at h
  | false =>
    simp only [he] at h
    cases hc : clear_backbuffer fuel
        { gop := fw.LocateProtocol.Mode
          fb := fw.LocateProtocol.fb
          backbuffer := fw.AllocatePool fw.LocateProtocol.Mode.FrameBufferSize
          backbuffer_size := fw.LocateProtocol.Mode.FrameBufferSize
          num_modes := 0
          next_mode := 1
          setmode_log := [] } with
    | none => simp [hc] at h
    | some st1 =>
      obtain ⟨bb, hst1, _⟩ := clear_backbuffer_some fuel _ st1 hc
      subst hst1
      simp [hc, hq] at h
      rw [← h]

/-- A loop whose start is not below its bound returns at once, whatever the fuel. -/
theorem loopU32_skip {σ : Type} (bound : Nat) (body : Nat → σ → Option σ) (fuel i : Nat) (s : σ)
    (h : bound ≤ i) : loopU32 bound body fuel i s = some s := by
  have hlt : ¬ i < bound := by omega
  cases fuel <;> simp [loopU32, hlt]

/-- A fill loop that returns has left every slot from the bound on as it was. -/
theorem fill_loop_frame (bound : Nat) (src : Buffer) (fuel : Nat) (s r : Buffer)
    (h : loopU32 bound (fun i b => some (store b i (src i))) fuel 0 s = some r) :
    ∀ k, bound ≤ k → r k = s k := by
  intro k hk
  by_cases hb : bound < 2 ^ 32
  · have hr := loopU32_result bound _ (fun i b => store b i (src i)) hb (fun _ _ _ => rfl)
      fuel 0 s r h
    rw [hr]
    refine iterRange_preserves _ (fun b => b k = s k) (bound - 0) 0 s ?_ rfl
    intro j t _ hj ht
    have hne : k ≠ j := by omega
    show store t j (src j) k = s k
    rw [store_other t j (src j) k hne]; exact ht
  · have hnone := fill_loop_diverges bound src fuel s (by omega)
    rw [hnone] at h
    exact absurd h (by simp)

/-- The state that `clear_backbuffer` returns, in closed form. -/
theorem clear_backbuffer_eq (fuel : Nat) (st st' : State)
    (h : clear_backbuffer fuel st = some st') :
    st' = { st with
      backbuffer := fun k => if k < st.gop.FrameBufferSize / 4 then 0 else st.backbuffer k } := by
  unfold clear_backbuffer at h
  cases hl : loopU32 (st.gop.FrameBufferSize / 4) (fun i bb => some (store bb i 0)) fuel 0
      st.backbuffer with
  | none => rw [hl] at h; exact absurd h (by simp)
  | some bb =>
    rw [hl] at h
    simp only [Option.map_some', Option.some.injEq] at h
    have hbb : bb = fun k => if k < st.gop.FrameBufferSize / 4 then 0 else st.backbuffer k := by
      funext k
      by_cases hk : k < st.gop.FrameBufferSize / 4
      · rw [if_pos hk]
        exact fill_loop_post _ (fun _ => 0) fuel st.backbuffer bb hl k hk
      · rw [if_neg hk]
        exact fill_loop_frame _ (fun _ => 0) fuel st.backbuffer bb hl k (by omega)
    rw [← h, hbb]

/-- When the slot count does not fit the 32-bit counter, `clear_backbuffer` never returns. -/
theorem clear_backbuffer_none (fuel : Nat) (st : State)
    (hb : 2 ^ 32 ≤ st.gop.FrameBufferSize / 4) : clear_backbuffer fuel st = none := by
  unfold clear_backbuffer
  rw [fill_loop_diverges _ (fun _ => 0) fuel st.backbuffer hb]
  rfl

/-- What `gop_swap_buffers` returns: the same state with a new hardware buffer that
holds the shadow value in every slot below `FrameBufferSize/4` and its old value
from there on. -/
theorem gop_swap_buffers_some (fuel : Nat) (st st' : State)
    (h : gop_swap_buffers fuel st = some st') :
    ∃ fb', st' = { st with fb := fb' } ∧
      (∀ i, i < st.gop.FrameBufferSize / 4 → fb' i = st.backbuffer i) ∧
      (∀ k, st.gop.FrameBufferSize / 4 ≤ k → fb' k = st.fb k) := by
  unfold gop_swap_buffers at h
  cases hl : loopU32 (st.gop.FrameBufferSize / 4)
      (fun i fb => some (store fb i (st.backbuffer i))) fuel 0 st.fb with
  | none => rw [hl] at h; exact absurd h (by simp)
  | some r =>
    rw [hl] at h
    simp only [Option.map_some', Option.some.injEq] at h
    exact ⟨r, h.symm, fill_loop_post _ st.backbuffer fuel st.fb r hl,
      fill_loop_frame _ st.backbuffer fuel st.fb r hl⟩

/-- What `gop_swap_buffers_at` returns differs from the state it started in at most in
the hardware buffer. -/
theorem gop_swap_buffers_at_some (fuel : Nat) (st st' : State) (x0 y0 x1 y1 : Nat)
    (h : gop_swap_buffers_at fuel st x0 y0 x1 y1 = some st') :
    ∃ fb', st' = { st with fb := fb' } := by
  unfold gop_swap_buffers_at at h
  generalize loopU32 y1 _ fuel y0 st.fb = r at h
  cases r with
  | none => exact absurd h (by simp)
  | some fb' =>
    simp only [Option.map_some', Option.some.injEq] at h
    exact ⟨fb', h.symm⟩

/-- A region flush over an empty rectangle that returns has not changed the hardware
buffer. -/
theorem gop_swap_buffers_at_empty (fuel : Nat) (st st' : State) (x0 y0 x1 y1 : Nat)
    (hy1 : y1 < 2 ^ 32) (hempty : x0 ≥ x1 ∨ y0 ≥ y1)
    (h : gop_swap_buffers_at fuel st x0 y0 x1 y1 = some st') : st'.fb = st.fb := by
  unfold gop_swap_buffers_at at h
  by_cases hy : y1 ≤ y0
  · rw [loopU32_skip y1 _ fuel y0 st.fb hy] at h
    simp only [Option.map_some', Option.some.injEq] at h
    rw [← h]
  · have hx : x1 ≤ x0 := by omega
    cases hl : loopU32 y1
        (fun y fb =>
          loopU32 x1
            (fun x fb =>
              let pixel := st.backbuffer (gop_get_index st x y)
              some (store fb (gop_get_index st x y) pixel))
            fuel x0 fb)
        fuel y0 st.fb with
    | none => rw [hl] at h; exact absurd h (by simp)
    | some r =>
      rw [hl] at h
      simp only [Option.map_some', Option.some.injEq] at h
      have hr := loopU32_result y1 _ (fun _ fb => fb) hy1
        (fun y fb _ => loopU32_skip x1 _ fuel x0 fb hx) fuel y0 st.fb r hl
      have hid : iterRange (fun (_ : Nat) (fb : Buffer) => fb) (y1 - y0) y0 st.fb = st.fb :=
        iterRange_preserves _ (fun b => b = st.fb) _ _ st.fb (fun _ _ _ _ ht => ht) rfl
      rw [← h, hr, hid]

/-- The state that `gop_init` returns, field by field. -/
theorem gop_init_some (efi : EfiHeaders) (fw : Firmware) (fuel : Nat) (st : State)
    (h : gop_init efi fw fuel = some (Outcome.returned st)) :
    efi.EFI_ERROR fw.LocateProtocol.status = false ∧
    st.backbuffer = (fun k =>
      if k < fw.LocateProtocol.Mode.FrameBufferSize / 4 then 0
      else fw.AllocatePool fw.LocateProtocol.Mode.FrameBufferSize k) ∧
    st.backbuffer_size = fw.LocateProtocol.Mode.FrameBufferSize ∧
    st.next_mode = 1 ∧
    st.num_modes = st.gop.MaxMode ∧
    (fw.QueryMode fw.LocateProtocol.Mode.Mode = efi.EFI_NOT_STARTED →
      st.gop = (fw.SetMode 0).Mode ∧ st.fb = (fw.SetMode 0).fb ∧ st.setmode_log = [0]) ∧
    (fw.QueryMode fw.LocateProtocol.Mode.Mode ≠ efi.EFI_NOT_STARTED →
      st.gop = fw.LocateProtocol.Mode ∧ st.fb = fw.LocateProtocol.fb ∧ st.setmode_log = []) := by
  cases he : efi.EFI_ERROR fw.LocateProtocol.status with
  | true =>
    unfold gop_init get_gop halt at h
    simp [he] at h
  | false =>
    rw [gop_init_eq efi fw fuel he] at h
    cases hc : clear_backbuffer fuel
        { gop := fw.LocateProtocol.Mode
          fb := fw.LocateProtocol.fb
          backbuffer := fw.AllocatePool fw.LocateProtocol.Mode.FrameBufferSize
          backbuffer_size := fw.LocateProtocol.Mode.FrameBufferSize
          num_modes := 0
          next_mode := 1
          setmode_log := [] } with
    | none => rw [hc] at h; exact absurd h (by simp)
    | some st1 =>
      have hst1 := clear_backbuffer_eq fuel _ st1 hc
      rw [hc] at h
      simp only [Option.map_some', Option.some.injEq, Outcome.returned.injEq] at h
      subst hst1
      by_cases hq : fw.QueryMode fw.LocateProtocol.Mode.Mode = efi.EFI_NOT_STARTED
      · simp only [hq, if_true] at h
        subst h
        exact ⟨rfl, rfl, rfl, rfl, rfl, fun _ => ⟨rfl, rfl, rfl⟩, fun hne => absurd hq hne⟩
      · simp only [hq, if_false] at h
        subst h
        exact ⟨rfl, rfl, rfl, rfl, rfl, fun heq => absurd heq hq, fun _ => ⟨rfl, rfl, rfl⟩⟩

/-- After a run of `gop_next_mode` calls started with the cursor in range, the mode
numbers passed to `SetMode` are the successive cursor values modulo the mode count. -/
theorem gop_next_mode_seq_log (fuel : Nat) :
    ∀ (fws : List Firmware) (st st' : State), gop_next_mode_seq fuel fws st = some st' →
      st.next_mode < st.num_modes → st.num_modes < 2 ^ 64 →
      st'.setmode_log = st.setmode_log ++
        (List.range fws.length).map (fun j => (st.next_mode + j) % st.num_modes) := by
  intro fws
  induction fws with
  | nil =>
    intro st st' h _ _
    simp only [gop_next_mode_seq, Option.some.injEq] at h
    subst h
    simp
  | cons fw fws ih =>
    intro st st' h hc hn
    simp only [gop_next_mode_seq] at h
    cases h1 : gop_next_mode fw fuel st with
    | none => rw [h1] at h; exact absurd h (by simp)
    | some st1 =>
      rw [h1, Option.some_bind] at h
      obtain ⟨hcur1, hnum1⟩ := gop_next_mode_cursor fw fuel st st1 h1 hc hn
      obtain ⟨_, _, _, _, hlog1, _⟩ := gop_next_mode_some fw fuel st st1 h1
      have hpos : 0 < st.num_modes := by omega
      have hc1 : st1.next_mode < st1.num_modes := by
        rw [hcur1, hnum1]; exact Nat.mod_lt _ hpos
      have hrec := ih st1 st' h hc1 (by rw [hnum1]; exact hn)
      have hhead : (st.next_mode + 0) % st.num_modes = st.next_mode := by
        rw [Nat.add_zero, Nat.mod_eq_of_lt hc]
      have htail : List.map (fun j => ((st.next_mode + 1) % st.num_modes + j) % st.num_modes)
            (List.range fws.length)
          = List.map ((fun j => (st.next_mode + j) % st.num_modes) ∘ Nat.succ)
            (List.range fws.length) := by
        apply List.map_congr_left
        intro j _
        show ((st.next_mode + 1) % st.num_modes + j) % st.num_modes
          = (st.next_mode + (j + 1)) % st.num_modes
        rw [Nat.mod_add_mod]
        congr 1
        omega
      rw [hrec, hlog1, hcur1, hnum1, List.length_cons, List.range_succ_eq_map, List.map_cons,
        List.map_map, List.append_assoc, List.singleton_append, hhead, htail]

/-- With two or more modes and the cursor at its initial value 1, the call number
`k` (counted from 1) of a run passes mode number `k mod num_modes` to `SetMode`. -/
theorem gop_next_mode_seq_request (fuel : Nat) (fws : List Firmware) (st st' : State)
    (h : gop_next_mode_seq fuel fws st = some st') (hstart : st.next_mode = 1)
    (hN : 2 ≤ st.num_modes) (hn : st.num_modes < 2 ^ 64) :
    st'.setmode_log = st.setmode_log ++
      (List.range fws.length).map (fun j => (j + 1) % st.num_modes) := by
  rw [gop_next_mode_seq_log fuel fws st st' h (by omega) hn, hstart]
  congr 1
  apply List.map_congr_left
  intro j _
  rw [Nat.add_comm]

/-- The index of a pixel is at most the exact value `x + y * (pitch/4)`. -/
theorem gop_get_index_le (st : State) (x y : Nat) :
    gop_get_index st x y ≤ x + y * (gop_get_pitch st / 4) := by
  unfold gop_get_index
  calc (x + (y * (gop_get_pitch st / 4)) % 2 ^ 32) % 2 ^ 32
      ≤ x + (y * (gop_get_pitch st / 4)) % 2 ^ 32 := Nat.mod_le _ _
    _ ≤ x + y * (gop_get_pitch st / 4) := Nat.add_le_add_left (Nat.mod_le _ _) x

/-- A pixel inside the padded rows lies below the slot count `(pitch/4) * height`. -/
theorem row_slot_lt (p h x y : Nat) (hx : x < p) (hy : y < h) : x + y * p < p * h := by
  have hrow : (y + 1) * p ≤ h * p := Nat.mul_le_mul_right _ hy
  have hexp : (y + 1) * p = y * p + p := by ring
  have hcomm : h * p = p * h := Nat.mul_comm _ _
  omega

/-- Without wrap the index is the exact value `x + y * (pitch/4)`. -/
theorem gop_get_index_exact (st : State) (x y : Nat)
    (hx : x < gop_get_pitch st / 4) (hy : y < gop_get_height st)
    (hfit : gop_get_pitch st / 4 * gop_get_height st ≤ 2 ^ 32) :
    gop_get_index st x y = x + y * (gop_get_pitch st / 4) := by
  have hlt := row_slot_lt _ _ x y hx hy
  have hlt2 : x + y * (gop_get_pitch st / 4) < 2 ^ 32 := by omega
  have hy2 : y * (gop_get_pitch st / 4) < 2 ^ 32 := by omega
  unfold gop_get_index
  rw [Nat.mod_eq_of_lt hy2, Nat.mod_eq_of_lt hlt2]

/-- Two slots of the padded rows with the same exact index are the same slot. -/
theorem row_slot_inj (p x y x' y' : Nat) (hx : x < p) (hx' : x' < p)
    (h : x + y * p = x' + y' * p) : x = x' ∧ y = y' := by
  have h1 : (x + y * p) % p = x := by
    rw [Nat.add_mul_mod_self_right, Nat.mod_eq_of_lt hx]
  have h2 : (x' + y' * p) % p = x' := by
    rw [Nat.add_mul_mod_self_right, Nat.mod_eq_of_lt hx']
  have hxx : x = x' := by rw [← h1, ← h2, h]
  subst hxx
  have hp : 0 < p := by omega
  have hmul : y * p = y' * p := by omega
  exact ⟨rfl, Nat.eq_of_mul_eq_mul_right hp hmul⟩

/-- With a successful lookup and a slot count that fits the loop counter, `gop_init`
returns once the fuel covers the clearing loop. -/
theorem gop_init_returns (efi : EfiHeaders) (fw : Firmware) (fuel : Nat)
    (he : efi.EFI_ERROR fw.LocateProtocol.status = false)
    (hb : fw.LocateProtocol.Mode.FrameBufferSize / 4 < 2 ^ 32)
    (hf : fw.LocateProtocol.Mode.FrameBufferSize / 4 ≤ fuel) :
    ∃ st, gop_init efi fw fuel = some (Outcome.returned st) := by
  rw [gop_init_eq efi fw fuel he]
  obtain ⟨st1, h1⟩ := clear_backbuffer_returns fuel
    { gop := fw.LocateProtocol.Mode
      fb := fw.LocateProtocol.fb
      backbuffer := fw.AllocatePool fw.LocateProtocol.Mode.FrameBufferSize
      backbuffer_size := fw.LocateProtocol.Mode.FrameBufferSize
      num_modes := 0
      next_mode := 1
      setmode_log := [] } hb hf
  rw [h1]
  exact ⟨_, rfl⟩

/-- With a successful lookup and a slot count that does not fit the loop counter,
`gop_init` never gets past its call of `clear_backbuffer`. -/
theorem gop_init_none (efi : EfiHeaders) (fw : Firmware) (fuel : Nat)
    (he : efi.EFI_ERROR fw.LocateProtocol.status = false)
    (hb : 2 ^ 32 ≤ fw.LocateProtocol.Mode.FrameBufferSize / 4) :
    gop_init efi fw fuel = none := by
  rw [gop_init_eq efi fw fuel he, clear_backbuffer_none fuel _ hb]
  rfl

/-- A visible pixel of a mode with `width ≤ pitch/4` whose padded rows fit the
framebuffer has its index inside the framebuffer. -/
theorem visible_index_in_framebuffer (st : State) (x y : Nat)
    (hwidth : gop_get_width st ≤ gop_get_pitch st / 4)
    (hfit : gop_get_pitch st / 4 * gop_get_height st ≤ st.gop.FrameBufferSize / 4)
    (hx : x < gop_get_width st) (hy : y < gop_get_height st) :
    gop_get_index st x y < st.gop.FrameBufferSize / 4 := by
  have h1 := gop_get_index_le st x y
  have h2 := row_slot_lt (gop_get_pitch st / 4) (gop_get_height st) x y (by omega) hy
  omega

/-! The properties of the specification -/

/-- C1: for a rectangle with x0 ≤ x1 ≤ width() and y0 ≤ y1 ≤ height(), flush_region
(gop_swap_buffers_at) returns, and afterwards every hardware slot whose index is
index_of(x,y) for some x0 ≤ x < x1, y0 ≤ y < y1 holds the shadow buffer's value at
that index, while every other hardware slot holds its previous value. -/
theorem gop_swap_buffers_at_frame (st : State) (x0 y0 x1 y1 fuel : Nat) (hwf : st.gop.wf)
    (hx : x0 ≤ x1 ∧ x1 ≤ gop_get_width st) (hy : y0 ≤ y1 ∧ y1 ≤ gop_get_height st)
    (hfuel : x1 - x0 ≤ fuel ∧ y1 - y0 ≤ fuel) :
    ∃ st', gop_swap_buffers_at fuel st x0 y0 x1 y1 = some st' ∧
      ∀ k,
        ((∃ x y, x0 ≤ x ∧ x < x1 ∧ y0 ≤ y ∧ y < y1 ∧ gop_get_index st x y = k) →
          st'.fb k = st.backbuffer k) ∧
        ((¬ ∃ x y, x0 ≤ x ∧ x < x1 ∧ y0 ≤ y ∧ y < y1 ∧ gop_get_index st x y = k) →
          st'.fb k = st.fb k) := by
  obtain ⟨_, _, hw, hh, _, _⟩ := hwf
  have hx1 : x1 < 2 ^ 32 := lt_of_le_of_lt hx.2 hw
  have hy1 : y1 < 2 ^ 32 := lt_of_le_of_lt hy.2 hh
  obtain ⟨fb', hrun, hpost⟩ :=
    gop_swap_buffers_at_spec st x0 y0 x1 y1 fuel hx1 hy1 hfuel.1 hfuel.2
  exact ⟨{ st with fb := fb' }, hrun, hpost⟩

/-- The example of the specification: on the 4 × 4 buffer, flush_region(1,1,3,3)
sets exactly the slots (1,1),(2,1),(1,2),(2,2), that is 5, 6, 9 and 10, to 0xFF and
leaves the other twelve at 0x00. -/
theorem gop_swap_buffers_at_frame_witness :
    (example4x4.gop.wf ∧ (1 ≤ 3 ∧ 3 ≤ gop_get_width example4x4) ∧
      (1 ≤ 3 ∧ 3 ≤ gop_get_height example4x4) ∧ (3 - 1 ≤ 2 ∧ 3 - 1 ≤ 2)) ∧
    (∃ st', gop_swap_buffers_at 2 example4x4 1 1 3 3 = some st' ∧
      ∀ k,
        ((∃ x y, 1 ≤ x ∧ x < 3 ∧ 1 ≤ y ∧ y < 3 ∧ gop_get_index example4x4 x y = k) →
          st'.fb k = example4x4.backbuffer k) ∧
        ((¬ ∃ x y, 1 ≤ x ∧ x < 3 ∧ 1 ≤ y ∧ y < 3 ∧ gop_get_index example4x4 x y = k) →
          st'.fb k = example4x4.fb k)) ∧
    (gop_swap_buffers_at 2 example4x4 1 1 3 3).map (fun st' => (List.range 16).map st'.fb)
      = some [0, 0, 0, 0, 0, 255, 255, 0, 0, 255, 255, 0, 0, 0, 0, 0] :=
  ⟨by decide,
   gop_swap_buffers_at_frame example4x4 1 1 3 3 2 (by decide) (by decide) (by decide) (by decide),
   by decide⟩

/-- C2: after flush_all (gop_swap_buffers) the hardware framebuffer slot i equals the
shadow buffer slot i for every i in [0, framebuffer_size/4); the call returns, with
fuel for framebuffer_size/4 iterations, whenever that slot count fits the 32-bit
loop counter. -/
theorem gop_swap_buffers_copies (st : State) :
    (∀ fuel st', gop_swap_buffers fuel st = some st' →
      ∀ i, i < st.gop.FrameBufferSize / 4 → st'.fb i = st.backbuffer i) ∧
    (st.gop.FrameBufferSize / 4 < 2 ^ 32 →
      ∀ fuel, st.gop.FrameBufferSize / 4 ≤ fuel → ∃ st', gop_swap_buffers fuel st = some st') := by
  constructor
  · intro fuel st' h i hi
    unfold gop_swap_buffers at h
    cases hl : loopU32 (st.gop.FrameBufferSize / 4)
        (fun i fb => some (store fb i (st.backbuffer i))) fuel 0 st.fb with
    | none => rw [hl] at h; exact absurd h (by simp)
    | some r =>
      rw [hl] at h
      simp only [Option.map_some', Option.some.injEq] at h
      rw [← h]
      exact fill_loop_post _ st.backbuffer fuel st.fb r hl i hi
  · intro hb fuel hf
    obtain ⟨r, hr⟩ := fill_loop_returns _ st.backbuffer fuel st.fb hb hf
    refine ⟨{ st with fb := r }, ?_⟩
    unfold gop_swap_buffers
    rw [hr]; rfl

/-- On the 4 × 4 example flush_all returns and the sixteen hardware slots then hold
0xFF, the content of the shadow buffer. -/
theorem gop_swap_buffers_copies_witness :
    example4x4.gop.FrameBufferSize / 4 < 2 ^ 32 ∧
    (∃ st', gop_swap_buffers 16 example4x4 = some st') ∧
    (∀ st', gop_swap_buffers 16 example4x4 = some st' →
      ∀ i, i < example4x4.gop.FrameBufferSize / 4 → st'.fb i = example4x4.backbuffer i) ∧
    (gop_swap_buffers 16 example4x4).map (fun st' => (List.range 16).map st'.fb)
      = some (List.replicate 16 255) :=
  ⟨by decide,
   (gop_swap_buffers_copies example4x4).2 (by decide) 16 (by decide),
   (gop_swap_buffers_copies example4x4).1 16,
   by decide⟩

/-- C3 as stated fails: on the 4 × 4 example size_bytes() is 64 while
pitch_bytes()/4 * height() is 16. -/
theorem gop_get_size_counterexample :
    gop_get_size example4x4 = 64 ∧
    gop_get_pitch example4x4 / 4 * gop_get_height example4x4 = 16 ∧
    gop_get_size example4x4 ≠ gop_get_pitch example4x4 / 4 * gop_get_height example4x4 := by
  decide

/-- C3 (amended): for every current mode size_bytes() is four times
pitch_bytes()/4 * height(), reduced modulo 2^32; it is exactly
4 * (pitch_bytes()/4 * height()), the byte count pitch_bytes() * height(), whenever
that product is below 2^32. -/
theorem gop_get_size_bytes (st : State) :
    gop_get_size st = (4 * (gop_get_pitch st / 4 * gop_get_height st)) % 2 ^ 32 ∧
    (gop_get_pitch st * gop_get_height st < 2 ^ 32 →
      gop_get_size st = 4 * (gop_get_pitch st / 4 * gop_get_height st) ∧
      gop_get_size st = gop_get_pitch st * gop_get_height st) := by
  have hp := gop_get_pitch_div4 st
  have hmul : 4 * (gop_get_pitch st / 4 * gop_get_height st)
      = gop_get_pitch st * gop_get_height st := by
    rw [← Nat.mul_assoc, hp]
  refine ⟨?_, fun h => ?_⟩
  · rw [hmul]; rfl
  · have hs : gop_get_size st = gop_get_pitch st * gop_get_height st := by
      unfold gop_get_size
      exact Nat.mod_eq_of_lt h
    exact ⟨by rw [hmul]; exact hs, hs⟩

/-- On the 4 × 4 example the byte count is 64 = 4 * (4 * 4). -/
theorem gop_get_size_bytes_witness :
    gop_get_pitch example4x4 * gop_get_height example4x4 < 2 ^ 32 ∧
    gop_get_size example4x4 = 4 * (gop_get_pitch example4x4 / 4 * gop_get_height example4x4) ∧
    gop_get_size example4x4 = gop_get_pitch example4x4 * gop_get_height example4x4 :=
  ⟨by decide, (gop_get_size_bytes example4x4).2 (by decide)⟩

/-- C4 as stated fails: in the 32768 × 32768 mode the byte size wraps to 0, so
index_of(0,0) = 0 is not below size_bytes()/4 = 0. -/
theorem gop_get_index_bound_counterexample :
    mode32768.gop.wf ∧ 0 < gop_get_pitch mode32768 / 4 ∧ 0 < gop_get_height mode32768 ∧
    gop_get_size mode32768 = 0 ∧
    ¬ gop_get_index mode32768 0 0 < gop_get_size mode32768 / 4 := by
  decide

/-- C4 (amended): when pitch_bytes() * height() is below 2^32, for every (x,y) with
x < pitch_bytes()/4 and y < height() the value of index_of(x,y) is below
size_bytes()/4. -/
theorem gop_get_index_bound (st : State) (x y : Nat)
    (hx : x < gop_get_pitch st / 4) (hy : y < gop_get_height st)
    (hfit : gop_get_pitch st * gop_get_height st < 2 ^ 32) :
    gop_get_index st x y < gop_get_size st / 4 := by
  have hsize := gop_get_size_nowrap st hfit
  have hidx : gop_get_index st x y ≤ x + y * (gop_get_pitch st / 4) := by
    unfold gop_get_index
    calc (x + (y * (gop_get_pitch st / 4)) % 2 ^ 32) % 2 ^ 32
        ≤ x + (y * (gop_get_pitch st / 4)) % 2 ^ 32 := Nat.mod_le _ _
      _ ≤ x + y * (gop_get_pitch st / 4) := Nat.add_le_add_left (Nat.mod_le _ _) x
  have hrow : (y + 1) * (gop_get_pitch st / 4)
      ≤ gop_get_height st * (gop_get_pitch st / 4) := Nat.mul_le_mul_right _ hy
  have hcomm : gop_get_height st * (gop_get_pitch st / 4)
      = gop_get_pitch st / 4 * gop_get_height st := Nat.mul_comm _ _
  have hexp : (y + 1) * (gop_get_pitch st / 4)
      = y * (gop_get_pitch st / 4) + gop_get_pitch st / 4 := by ring
  rw [hsize]
  omega

/-- On the 4 × 4 example index_of(3,3) = 15 is below size_bytes()/4 = 16. -/
theorem gop_get_index_bound_witness :
    (3 < gop_get_pitch example4x4 / 4 ∧ 3 < gop_get_height example4x4 ∧
      gop_get_pitch example4x4 * gop_get_height example4x4 < 2 ^ 32) ∧
    gop_get_index example4x4 3 3 < gop_get_size example4x4 / 4 :=
  ⟨by decide, gop_get_index_bound example4x4 3 3 (by decide) (by decide) (by decide)⟩

/-- C5 as stated fails: with 1048576 slots per scanline and 8192 rows, index_of(0,4096)
is 0 while 0 + 4096 * (pitch_bytes()/4) is 2^32. -/
theorem gop_get_index_value_counterexample :
    modeWide.gop.wf ∧ 0 < gop_get_pitch modeWide / 4 ∧ 4096 < gop_get_height modeWide ∧
    gop_get_index modeWide 0 4096 = 0 ∧
    0 + 4096 * (gop_get_pitch modeWide / 4) = 2 ^ 32 ∧
    gop_get_index modeWide 0 4096 ≠ 0 + 4096 * (gop_get_pitch modeWide / 4) := by
  decide

/-- C5 (amended): when (pitch_bytes()/4) * height() is at most 2^32, for every (x,y)
with x < pitch_bytes()/4 and y < height() the UINT32 result index_of(x,y) is the
exact integer x + y * (pitch_bytes()/4). -/
theorem gop_get_index_value (st : State) (x y : Nat)
    (hx : x < gop_get_pitch st / 4) (hy : y < gop_get_height st)
    (hfit : gop_get_pitch st / 4 * gop_get_height st ≤ 2 ^ 32) :
    gop_get_index st x y = x + y * (gop_get_pitch st / 4) := by
  have hrow : (y + 1) * (gop_get_pitch st / 4)
      ≤ gop_get_height st * (gop_get_pitch st / 4) := Nat.mul_le_mul_right _ hy
  have hcomm : gop_get_height st * (gop_get_pitch st / 4)
      = gop_get_pitch st / 4 * gop_get_height st := Nat.mul_comm _ _
  have hexp : (y + 1) * (gop_get_pitch st / 4)
      = y * (gop_get_pitch st / 4) + gop_get_pitch st / 4 := by ring
  have hlt : x + y * (gop_get_pitch st / 4) < 2 ^ 32 := by omega
  have hy2 : y * (gop_get_pitch st / 4) < 2 ^ 32 := by omega
  unfold gop_get_index
  rw [Nat.mod_eq_of_lt hy2, Nat.mod_eq_of_lt hlt]

/-- On the 4 × 4 example index_of(2,3) is 2 + 3 * 4 = 14. -/
theorem gop_get_index_value_witness :
    (2 < gop_get_pitch example4x4 / 4 ∧ 3 < gop_get_height example4x4 ∧
      gop_get_pitch example4x4 / 4 * gop_get_height example4x4 ≤ 2 ^ 32) ∧
    gop_get_index example4x4 2 3 = 2 + 3 * (gop_get_pitch example4x4 / 4) :=
  ⟨by decide, gop_get_index_value example4x4 2 3 (by decide) (by decide) (by decide)⟩

/-- C6, the code at the failing input: with a single mode `gop_init` records
`num_modes = 1` and leaves the cursor at 1; the one call of `gop_next_mode` that makes
a full cycle passes mode number 1 (not a mode of the platform) to `SetMode` and leaves
the cursor at 0, where every later call keeps it. -/
theorem gop_next_mode_single_mode :
    ((gop_init uefi64 singleModeFirmware 16).bind Outcome.state?).map
      (fun st => (st.num_modes, st.next_mode)) = some (1, 1) ∧
    (((gop_init uefi64 singleModeFirmware 16).bind Outcome.state?).bind
      (gop_next_mode_seq 16 [singleModeFirmware])).map
      (fun st => (st.next_mode, st.setmode_log)) = some (0, [1]) ∧
    (((gop_init uefi64 singleModeFirmware 16).bind Outcome.state?).bind
      (gop_next_mode_seq 16 [singleModeFirmware, singleModeFirmware])).map
      (fun st => (st.next_mode, st.setmode_log)) = some (0, [1, 0]) := by
  decide

/-- C7, the code at the failing input: when the mode query answers `EFI_NOT_STARTED`,
`gop_init` sets mode 0 after it has allocated the shadow buffer and does not allocate
again: the buffer keeps the 16 bytes of the stale mode record while the current mode
reports 64. -/
theorem gop_init_not_started_size :
    ((gop_init uefi64 notStartedFirmware 16).bind Outcome.state?).map
      (fun st => (st.backbuffer_size, st.gop.FrameBufferSize, st.setmode_log))
      = some (16, 64, [0]) := by
  decide

/-- C8: whatever the shadow buffer held, after clear() (clear_backbuffer) every slot i in
[0, framebuffer byte size / 4) of the shadow buffer is zero; the call returns, with
fuel for that many iterations, whenever the slot count fits the 32-bit loop counter. -/
theorem clear_backbuffer_zero (st : State) :
    (∀ fuel st', clear_backbuffer fuel st = some st' →
      ∀ i, i < st.gop.FrameBufferSize / 4 → st'.backbuffer i = 0) ∧
    (st.gop.FrameBufferSize / 4 < 2 ^ 32 →
      ∀ fuel, st.gop.FrameBufferSize / 4 ≤ fuel → ∃ st', clear_backbuffer fuel st = some st') := by
  constructor
  · intro fuel st' h i hi
    obtain ⟨bb, hst, hz⟩ := clear_backbuffer_some fuel st st' h
    rw [hst]
    exact hz i hi
  · intro hb fuel hf
    exact clear_backbuffer_returns fuel st hb hf

/-- On the 4 × 4 example, whose shadow buffer is filled with 0xFF, clear() returns and
leaves sixteen zero slots. -/
theorem clear_backbuffer_zero_witness :
    example4x4.gop.FrameBufferSize / 4 < 2 ^ 32 ∧
    (∃ st', clear_backbuffer 16 example4x4 = some st') ∧
    (∀ st', clear_backbuffer 16 example4x4 = some st' →
      ∀ i, i < example4x4.gop.FrameBufferSize / 4 → st'.backbuffer i = 0) ∧
    (clear_backbuffer 16 example4x4).map (fun st' => (List.range 16).map st'.backbuffer)
      = some (List.replicate 16 0) :=
  ⟨by decide,
   (clear_backbuffer_zero example4x4).2 (by decide) 16 (by decide),
   (clear_backbuffer_zero example4x4).1 16,
   by decide⟩

/-- What holds of init() (gop_init) on every platform: it ends in the fatal halt if and
only if the capability lookup fails; with a successful lookup it returns, whatever the
mode query and the retry answer, once the fuel covers the framebuffer_size/4 iterations
of its clearing loop, provided that slot count fits the 32-bit loop counter. -/
theorem gop_init_halts_iff (efi : EfiHeaders) (fw : Firmware) :
    (∀ fuel, gop_init efi fw fuel = some Outcome.halted ↔
      efi.EFI_ERROR fw.LocateProtocol.status = true) ∧
    (efi.EFI_ERROR fw.LocateProtocol.status = false →
      fw.LocateProtocol.Mode.FrameBufferSize / 4 < 2 ^ 32 →
      ∀ fuel, fw.LocateProtocol.Mode.FrameBufferSize / 4 ≤ fuel →
        ∃ st, gop_init efi fw fuel = some (Outcome.returned st)) := by
  constructor
  · intro fuel
    cases he : efi.EFI_ERROR fw.LocateProtocol.status with
    | true =>
      simp only [iff_true]
      unfold gop_init get_gop halt
      simp only [he, if_true]
    | false =>
      rw [gop_init_eq efi fw fuel he]
      generalize clear_backbuffer fuel _ = r
      cases r <;> simp
  · intro he hb fuel hf
    rw [gop_init_eq efi fw fuel he]
    obtain ⟨st1, h1⟩ := clear_backbuffer_returns fuel
      { gop := fw.LocateProtocol.Mode
        fb := fw.LocateProtocol.fb
        backbuffer := fw.AllocatePool fw.LocateProtocol.Mode.FrameBufferSize
        backbuffer_size := fw.LocateProtocol.Mode.FrameBufferSize
        num_modes := 0
        next_mode := 1
        setmode_log := [] } hb hf
    rw [h1]
    exact ⟨_, rfl⟩

/-- A failed lookup halts; a successful one returns when the mode query succeeds, when
it answers EFI_NOT_STARTED, and when it fails with another error. -/
theorem gop_init_halts_iff_witness :
    (gop_init uefi64 noGopFirmware 16 = some Outcome.halted) ∧
    (∃ st, gop_init uefi64 (twoModeFirmware 0) 16 = some (Outcome.returned st)) ∧
    (∃ st, gop_init uefi64 (twoModeFirmware (2 ^ 63 + 19)) 16 = some (Outcome.returned st)) ∧
    (∃ st, gop_init uefi64 (twoModeFirmware (2 ^ 63 + 2)) 16 = some (Outcome.returned st)) ∧
    ¬ (gop_init uefi64 (twoModeFirmware (2 ^ 63 + 2)) 16 = some Outcome.halted) :=
  ⟨((gop_init_halts_iff uefi64 noGopFirmware).1 16).2 (by decide),
   (gop_init_halts_iff uefi64 (twoModeFirmware 0)).2 (by decide) (by decide) 16 (by decide),
   (gop_init_halts_iff uefi64 (twoModeFirmware (2 ^ 63 + 19))).2 (by decide) (by decide) 16
     (by decide),
   (gop_init_halts_iff uefi64 (twoModeFirmware (2 ^ 63 + 2))).2 (by decide) (by decide) 16
     (by decide),
   fun h => absurd (((gop_init_halts_iff uefi64 (twoModeFirmware (2 ^ 63 + 2))).1 16).1 h)
     (by decide)⟩

/-- C9, the code at the failing input: the capability lookup succeeds on a well-formed
mode record that reports a framebuffer of 2^34 bytes.  Whatever the mode query and the
retry SetMode answer, init() (gop_init) does not complete: it does not halt, and for no
amount of fuel does it return, because its clearing loop never ends. -/
theorem gop_init_never_completes :
    (∀ q r, uefi64.EFI_ERROR (hugeFirmware q r).LocateProtocol.status = false ∧
      (hugeFirmware q r).LocateProtocol.Mode.wf ∧
      (hugeFirmware q r).LocateProtocol.Mode.FrameBufferSize = 2 ^ 34) ∧
    (∀ q r fuel, gop_init uefi64 (hugeFirmware q r) fuel = none) ∧
    (∀ q r fuel, gop_init uefi64 (hugeFirmware q r) fuel ≠ some Outcome.halted) ∧
    (∀ q r fuel st, gop_init uefi64 (hugeFirmware q r) fuel ≠ some (Outcome.returned st)) := by
  have hok : ∀ q r, uefi64.EFI_ERROR (hugeFirmware q r).LocateProtocol.status = false := by
    intro q r
    show uefi64.EFI_ERROR 0 = false
    decide
  have hwf : ∀ q r, (hugeFirmware q r).LocateProtocol.Mode.wf := by
    intro q r
    show (mkMode 1 65536 65536 65536 (2 ^ 34)).wf
    decide
  have hbig : ∀ q r, 2 ^ 32 ≤ (hugeFirmware q r).LocateProtocol.Mode.FrameBufferSize / 4 := by
    intro q r
    show 2 ^ 32 ≤ 2 ^ 34 / 4
    decide
  have hnone : ∀ q r fuel, gop_init uefi64 (hugeFirmware q r) fuel = none :=
    fun q r fuel => gop_init_none uefi64 (hugeFirmware q r) fuel (hok q r) (hbig q r)
  refine ⟨fun q r => ⟨hok q r, hwf q r, rfl⟩, hnone, ?_, ?_⟩
  · intro q r fuel h
    rw [hnone q r fuel] at h
    exact absurd h (by simp)
  · intro q r fuel st h
    rw [hnone q r fuel] at h
    exact absurd h (by simp)

/-- C10: after next_mode() (gop_next_mode), whatever the firmware did with the mode
switch, the shadow buffer is the newly allocated one, sized to the now current mode,
and each of its framebuffer_size/4 slots is zero; the call returns, with fuel for that
many iterations, whenever the slot count fits the 32-bit loop counter. -/
theorem gop_next_mode_zero_fill (fw : Firmware) (st : State) :
    (∀ fuel st', gop_next_mode fw fuel st = some st' →
      st'.gop = (fw.SetMode st.next_mode).Mode ∧
      st'.backbuffer_size = st'.gop.FrameBufferSize ∧
      ∀ i, i < st'.gop.FrameBufferSize / 4 → st'.backbuffer i = 0) ∧
    ((fw.SetMode st.next_mode).Mode.FrameBufferSize / 4 < 2 ^ 32 →
      ∀ fuel, (fw.SetMode st.next_mode).Mode.FrameBufferSize / 4 ≤ fuel →
        ∃ st', gop_next_mode fw fuel st = some st') := by
  constructor
  · intro fuel st' h
    obtain ⟨hg, hs, _, _, _, hz⟩ := gop_next_mode_some fw fuel st st' h
    refine ⟨hg, by rw [hs, hg], ?_⟩
    rw [hg]
    exact hz
  · intro hb fuel hf
    unfold gop_next_mode
    exact clear_backbuffer_returns fuel _ hb hf

/-- From the 4 × 4 example the two-mode platform switches to its 8 × 4 mode of 128
bytes; the fresh shadow buffer, handed out full of 0xAA, has 32 zero slots afterwards. -/
theorem gop_next_mode_zero_fill_witness :
    ((twoModeFirmware 0).SetMode example4x4.next_mode).Mode.FrameBufferSize / 4 < 2 ^ 32 ∧
    (∃ st', gop_next_mode (twoModeFirmware 0) 32 example4x4 = some st') ∧
    (∀ st', gop_next_mode (twoModeFirmware 0) 32 example4x4 = some st' →
      st'.gop = ((twoModeFirmware 0).SetMode example4x4.next_mode).Mode ∧
      st'.backbuffer_size = st'.gop.FrameBufferSize ∧
      ∀ i, i < st'.gop.FrameBufferSize / 4 → st'.backbuffer i = 0) ∧
    (gop_next_mode (twoModeFirmware 0) 32 example4x4).map
      (fun st' => (st'.backbuffer_size, (List.range 32).map st'.backbuffer))
      = some (128, List.replicate 32 0) :=
  ⟨by decide,
   (gop_next_mode_zero_fill (twoModeFirmware 0) example4x4).2 (by decide) 32 (by decide),
   (gop_next_mode_zero_fill (twoModeFirmware 0) example4x4).1 32,
   by decide⟩

/-- C11: whatever framebuffer size the firmware reports and whatever the freshly
allocated memory holds, after init() (gop_init) has returned the shadow buffer, which
was allocated with that size, is zero in every slot of [0, framebuffer byte size / 4);
init() returns, with fuel for that many iterations, whenever the lookup succeeds and the
slot count fits the 32-bit loop counter. -/
theorem gop_init_zero_fill (efi : EfiHeaders) (fw : Firmware) :
    (∀ fuel st, gop_init efi fw fuel = some (Outcome.returned st) →
      st.backbuffer_size = fw.LocateProtocol.Mode.FrameBufferSize ∧
      (∀ i, i < fw.LocateProtocol.Mode.FrameBufferSize / 4 → st.backbuffer i = 0) ∧
      (fw.QueryMode fw.LocateProtocol.Mode.Mode ≠ efi.EFI_NOT_STARTED →
        st.gop.FrameBufferSize = fw.LocateProtocol.Mode.FrameBufferSize)) ∧
    (efi.EFI_ERROR fw.LocateProtocol.status = false →
      fw.LocateProtocol.Mode.FrameBufferSize / 4 < 2 ^ 32 →
      ∀ fuel, fw.LocateProtocol.Mode.FrameBufferSize / 4 ≤ fuel →
        ∃ st, gop_init efi fw fuel = some (Outcome.returned st)) := by
  constructor
  · intro fuel st h
    obtain ⟨_, hbb, hsize, _, _, _, hplain⟩ := gop_init_some efi fw fuel st h
    refine ⟨hsize, ?_, fun hq => ?_⟩
    · intro i hi
      rw [hbb]
      simp only [hi, if_true]
    · rw [(hplain hq).1]
  · intro he hb fuel hf
    exact gop_init_returns efi fw fuel he hb hf

/-- On the two-mode platform, whose allocator hands out memory full of 0xAA, init()
returns with the sixteen slots of the 64-byte shadow buffer at zero. -/
theorem gop_init_zero_fill_witness :
    (uefi64.EFI_ERROR (twoModeFirmware 0).LocateProtocol.status = false ∧
      (twoModeFirmware 0).LocateProtocol.Mode.FrameBufferSize / 4 < 2 ^ 32) ∧
    (∃ st, gop_init uefi64 (twoModeFirmware 0) 16 = some (Outcome.returned st)) ∧
    (∀ st, gop_init uefi64 (twoModeFirmware 0) 16 = some (Outcome.returned st) →
      st.backbuffer_size = (twoModeFirmware 0).LocateProtocol.Mode.FrameBufferSize ∧
      (∀ i, i < (twoModeFirmware 0).LocateProtocol.Mode.FrameBufferSize / 4 →
        st.backbuffer i = 0) ∧
      ((twoModeFirmware 0).QueryMode (twoModeFirmware 0).LocateProtocol.Mode.Mode
          ≠ uefi64.EFI_NOT_STARTED →
        st.gop.FrameBufferSize = (twoModeFirmware 0).LocateProtocol.Mode.FrameBufferSize)) ∧
    ((gop_init uefi64 (twoModeFirmware 0) 16).bind Outcome.state?).map
      (fun st => (st.backbuffer_size, (List.range 16).map st.backbuffer))
      = some (64, List.replicate 16 0) :=
  ⟨by decide,
   (gop_init_zero_fill uefi64 (twoModeFirmware 0)).2 (by decide) (by decide) 16 (by decide),
   (gop_init_zero_fill uefi64 (twoModeFirmware 0)).1 16,
   by decide⟩

/-- C12, the code at the failing input: with a framebuffer of 2^34 bytes (2^32 slots) the
loop of clear_backbuffer does not terminate: the 32-bit counter wraps to 0 before it
can reach the bound, so no amount of fuel makes the call return. -/
theorem clear_backbuffer_never_returns :
    mode16GiB.gop.wf ∧ mode16GiB.gop.FrameBufferSize / 4 = 2 ^ 32 ∧
    ∀ fuel, clear_backbuffer fuel mode16GiB = none :=
  ⟨by decide, by decide, fun fuel => clear_backbuffer_none fuel mode16GiB (by decide)⟩

/-- C13: clear() (clear_backbuffer) is idempotent: a second run on the state returned
by a first run returns that same state, shadow buffer and all other fields; both runs
return, with fuel for framebuffer_size/4 iterations, whenever that slot count fits the
32-bit loop counter. -/
theorem clear_backbuffer_idempotent (st : State) :
    (∀ fuel1 fuel2 st1 st2, clear_backbuffer fuel1 st = some st1 →
      clear_backbuffer fuel2 st1 = some st2 → st2 = st1) ∧
    (st.gop.FrameBufferSize / 4 < 2 ^ 32 →
      ∀ fuel, st.gop.FrameBufferSize / 4 ≤ fuel →
        ∃ st1, clear_backbuffer fuel st = some st1 ∧ clear_backbuffer fuel st1 = some st1) := by
  have hidem : ∀ fuel1 fuel2 st1 st2, clear_backbuffer fuel1 st = some st1 →
      clear_backbuffer fuel2 st1 = some st2 → st2 = st1 := by
    intro fuel1 fuel2 st1 st2 h1 h2
    have e1 := clear_backbuffer_eq fuel1 st st1 h1
    have e2 := clear_backbuffer_eq fuel2 st1 st2 h2
    rw [e2]
    subst e1
    show ({ st with backbuffer := fun k =>
        if k < st.gop.FrameBufferSize / 4 then 0
        else (if k < st.gop.FrameBufferSize / 4 then 0 else st.backbuffer k) } : State)
      = { st with backbuffer := fun k =>
        if k < st.gop.FrameBufferSize / 4 then 0 else st.backbuffer k }
    congr 1
    funext k
    by_cases hk : k < st.gop.FrameBufferSize / 4 <;> simp [hk]
  refine ⟨hidem, ?_⟩
  intro hb fuel hf
  obtain ⟨st1, h1⟩ := clear_backbuffer_returns fuel st hb hf
  have hgop : st1.gop = st.gop := by rw [clear_backbuffer_eq fuel st st1 h1]
  obtain ⟨st2, h2⟩ := clear_backbuffer_returns fuel st1 (by rw [hgop]; exact hb)
    (by rw [hgop]; exact hf)
  have h21 := hidem fuel fuel st1 st2 h1 h2
  rw [h21] at h2
  exact ⟨st1, h1, h2⟩

/-- On the 4 × 4 example, whose shadow buffer starts full of 0xFF, clear() run once and
clear() run twice both return, and the second run changes nothing. -/
theorem clear_backbuffer_idempotent_witness :
    example4x4.gop.FrameBufferSize / 4 < 2 ^ 32 ∧
    (∃ st1, clear_backbuffer 16 example4x4 = some st1 ∧
      clear_backbuffer 16 st1 = some st1) ∧
    (∀ st1 st2, clear_backbuffer 16 example4x4 = some st1 →
      clear_backbuffer 16 st1 = some st2 → st2 = st1) ∧
    ((clear_backbuffer 16 example4x4).bind (clear_backbuffer 16)).map
      (fun st => (List.range 20).map st.backbuffer)
      = (clear_backbuffer 16 example4x4).map (fun st => (List.range 20).map st.backbuffer) :=
  ⟨by decide,
   (clear_backbuffer_idempotent example4x4).2 (by decide) 16 (by decide),
   (clear_backbuffer_idempotent example4x4).1 16 16,
   by decide⟩

/-- C14, the code at the failing input: with a single mode (num_modes = 1) the first
call of next_mode() passes mode number 1 to SetMode, which is neither 1 mod 1 = 0 nor
below the mode count; the second call passes 0. -/
theorem gop_next_mode_first_request :
    (((gop_init uefi64 singleModeFirmware 16).bind Outcome.state?).bind
      (gop_next_mode singleModeFirmware 16)).map
      (fun st => (st.num_modes, st.setmode_log, decide (st.setmode_log = [1 % st.num_modes])))
      = some (1, [1], false) ∧
    (((gop_init uefi64 singleModeFirmware 16).bind Outcome.state?).bind
      (gop_next_mode_seq 16 [singleModeFirmware, singleModeFirmware])).map
      (fun st => st.setmode_log) = some [1, 0] := by
  decide

/-- C15: when init() (gop_init) returns, it has called SetMode exactly once, with mode
0, if the mode query answered EFI_NOT_STARTED, and not at all otherwise; the recorded
mode count num_modes is the MaxMode of the mode record that is current at the end
(the one left by SetMode(0) after the retry, the one found by the lookup otherwise).
init() returns, with enough fuel, whenever the lookup succeeds and the slot count fits
the 32-bit loop counter. -/
theorem gop_init_mode_count (efi : EfiHeaders) (fw : Firmware) :
    (∀ fuel st, gop_init efi fw fuel = some (Outcome.returned st) →
      (st.setmode_log = [0] ↔
        fw.QueryMode fw.LocateProtocol.Mode.Mode = efi.EFI_NOT_STARTED) ∧
      (st.setmode_log = [] ↔
        fw.QueryMode fw.LocateProtocol.Mode.Mode ≠ efi.EFI_NOT_STARTED) ∧
      st.num_modes = st.gop.MaxMode ∧
      st.gop = (if fw.QueryMode fw.LocateProtocol.Mode.Mode = efi.EFI_NOT_STARTED
        then (fw.SetMode 0).Mode else fw.LocateProtocol.Mode)) ∧
    (efi.EFI_ERROR fw.LocateProtocol.status = false →
      fw.LocateProtocol.Mode.FrameBufferSize / 4 < 2 ^ 32 →
      ∀ fuel, fw.LocateProtocol.Mode.FrameBufferSize / 4 ≤ fuel →
        ∃ st, gop_init efi fw fuel = some (Outcome.returned st)) := by
  constructor
  · intro fuel st h
    obtain ⟨_, _, _, _, hnum, hretry, hplain⟩ := gop_init_some efi fw fuel st h
    by_cases hq : fw.QueryMode fw.LocateProtocol.Mode.Mode = efi.EFI_NOT_STARTED
    · obtain ⟨hg, _, hlog⟩ := hretry hq
      refine ⟨⟨fun _ => hq, fun _ => hlog⟩, ⟨fun hnil => ?_, fun hne => absurd hq hne⟩, hnum, ?_⟩
      · rw [hlog] at hnil
        exact absurd hnil (by simp)
      · rw [if_pos hq]; exact hg
    · obtain ⟨hg, _, hlog⟩ := hplain hq
      refine ⟨⟨fun hone => ?_, fun heq => absurd heq hq⟩, ⟨fun _ => hq, fun _ => hlog⟩, hnum, ?_⟩
      · rw [hlog] at hone
        exact absurd hone (by simp)
      · rw [if_neg hq]; exact hg
  · intro he hb fuel hf
    exact gop_init_returns efi fw fuel he hb hf

/-- On the platform of the not-started quirk init() calls SetMode(0) once and records
the mode count 1 of the mode that the call brought up; on the two-mode platform with a
successful query it makes no SetMode call and records the mode count 2. -/
theorem gop_init_mode_count_witness :
    (uefi64.EFI_ERROR notStartedFirmware.LocateProtocol.status = false ∧
      notStartedFirmware.LocateProtocol.Mode.FrameBufferSize / 4 < 2 ^ 32) ∧
    (∃ st, gop_init uefi64 notStartedFirmware 16 = some (Outcome.returned st)) ∧
    (∀ st, gop_init uefi64 (twoModeFirmware 0) 16 = some (Outcome.returned st) →
      (st.setmode_log = [0] ↔
        (twoModeFirmware 0).QueryMode (twoModeFirmware 0).LocateProtocol.Mode.Mode
          = uefi64.EFI_NOT_STARTED) ∧
      (st.setmode_log = [] ↔
        (twoModeFirmware 0).QueryMode (twoModeFirmware 0).LocateProtocol.Mode.Mode
          ≠ uefi64.EFI_NOT_STARTED) ∧
      st.num_modes = st.gop.MaxMode ∧
      st.gop = (if (twoModeFirmware 0).QueryMode (twoModeFirmware 0).LocateProtocol.Mode.Mode
          = uefi64.EFI_NOT_STARTED
        then ((twoModeFirmware 0).SetMode 0).Mode else (twoModeFirmware 0).LocateProtocol.Mode)) ∧
    ((gop_init uefi64 notStartedFirmware 16).bind Outcome.state?).map
      (fun st => (st.setmode_log, st.num_modes, st.gop.MaxMode)) = some ([0], 1, 1) ∧
    ((gop_init uefi64 (twoModeFirmware 0) 16).bind Outcome.state?).map
      (fun st => (st.setmode_log, st.num_modes, st.gop.MaxMode)) = some ([], 2, 2) :=
  ⟨by decide,
   (gop_init_mode_count uefi64 notStartedFirmware).2 (by decide) (by decide) 16 (by decide),
   (gop_init_mode_count uefi64 (twoModeFirmware 0)).1 16,
   by decide,
   by decide⟩

/-- C16: in every state with pitch_bytes()/4 * height() ≤ framebuffer byte size / 4 and
without wrap of the index arithmetic (pitch_bytes()/4 * height() ≤ 2^32),
flush_region(0,0,width(),height()) returns and the hardware framebuffer then holds, at
index_of(x,y) for x < width() and y < height(), the value it holds after any flush_all()
that returns: at every such pixel whose slot lies inside the framebuffer, and so at
every such pixel when width() ≤ pitch_bytes()/4, the case in which scanline padding
exists.  The slots of the scanline padding (width() ≤ x < pitch_bytes()/4) keep their
previous hardware value.  flush_all() returns when the framebuffer slot count fits the
32-bit loop counter. -/
theorem full_flush_agrees (st : State) (fuel : Nat) (hwf : st.gop.wf)
    (hfit : gop_get_pitch st / 4 * gop_get_height st ≤ st.gop.FrameBufferSize / 4)
    (hnowrap : gop_get_pitch st / 4 * gop_get_height st ≤ 2 ^ 32)
    (hfuel : gop_get_width st ≤ fuel ∧ gop_get_height st ≤ fuel) :
    ∃ st', gop_swap_buffers_at fuel st 0 0 (gop_get_width st) (gop_get_height st) = some st' ∧
      (∀ fuelA stA, gop_swap_buffers fuelA st = some stA →
        ∀ x y, x < gop_get_width st → y < gop_get_height st →
          gop_get_index st x y < st.gop.FrameBufferSize / 4 →
          st'.fb (gop_get_index st x y) = stA.fb (gop_get_index st x y)) ∧
      (gop_get_width st ≤ gop_get_pitch st / 4 →
        ∀ fuelA stA, gop_swap_buffers fuelA st = some stA →
          ∀ x y, x < gop_get_width st → y < gop_get_height st →
            st'.fb (gop_get_index st x y) = stA.fb (gop_get_index st x y)) ∧
      (∀ x y, gop_get_width st ≤ x → x < gop_get_pitch st / 4 → y < gop_get_height st →
        st'.fb (gop_get_index st x y) = st.fb (gop_get_index st x y)) ∧
      (st.gop.FrameBufferSize / 4 < 2 ^ 32 →
        ∀ fuelA, st.gop.FrameBufferSize / 4 ≤ fuelA → ∃ stA, gop_swap_buffers fuelA st = some stA) := by
  obtain ⟨_, _, hw, hh, _, _⟩ := hwf
  obtain ⟨fb', hrun, hpost⟩ := gop_swap_buffers_at_spec st 0 0 (gop_get_width st)
    (gop_get_height st) fuel hw hh (by omega) (by omega)
  have hagree : ∀ fuelA stA, gop_swap_buffers fuelA st = some stA →
      ∀ x y, x < gop_get_width st → y < gop_get_height st →
        gop_get_index st x y < st.gop.FrameBufferSize / 4 →
        fb' (gop_get_index st x y) = stA.fb (gop_get_index st x y) := by
    intro fuelA stA hA x y hx hy hidx
    obtain ⟨fbA, hstA, hcopy, _⟩ := gop_swap_buffers_some fuelA st stA hA
    rw [hstA]
    show fb' (gop_get_index st x y) = fbA (gop_get_index st x y)
    rw [hcopy _ hidx]
    exact (hpost _).1 ⟨x, y, Nat.zero_le x, hx, Nat.zero_le y, hy, rfl⟩
  refine ⟨{ st with fb := fb' }, hrun, hagree, ?_, ?_, ?_⟩
  · intro hwidth fuelA stA hA x y hx hy
    exact hagree fuelA stA hA x y hx hy (visible_index_in_framebuffer st x y hwidth hfit hx hy)
  · intro x y hx hxp hy
    show fb' (gop_get_index st x y) = st.fb (gop_get_index st x y)
    apply (hpost _).2
    rintro ⟨x', y', _, hx', _, hy', heq⟩
    rw [gop_get_index_exact st x' y' (by omega) hy' hnowrap,
      gop_get_index_exact st x y hxp hy hnowrap] at heq
    have := (row_slot_inj _ x' y' x y (by omega) hxp heq).1
    omega
  · intro hb fuelA hf
    obtain ⟨r, hr⟩ := fill_loop_returns _ st.backbuffer fuelA st.fb hb hf
    refine ⟨{ st with fb := r }, ?_⟩
    unfold gop_swap_buffers
    rw [hr]; rfl

/-- On a 3 × 2 mode padded to 4 slots per scanline the full-rectangle flush sets the
six visible slots 0, 1, 2, 4, 5, 6 to the shadow value, as flush_all does, and leaves
the padding slots 3 and 7 at 0x00, where flush_all writes 0xFF. -/
theorem full_flush_agrees_witness :
    (paddedState.gop.wf ∧
      gop_get_pitch paddedState / 4 * gop_get_height paddedState
        ≤ paddedState.gop.FrameBufferSize / 4 ∧
      gop_get_pitch paddedState / 4 * gop_get_height paddedState ≤ 2 ^ 32 ∧
      (gop_get_width paddedState ≤ 4 ∧ gop_get_height paddedState ≤ 4) ∧
      gop_get_width paddedState ≤ gop_get_pitch paddedState / 4) ∧
    (∃ st', gop_swap_buffers_at 4 paddedState 0 0 (gop_get_width paddedState)
        (gop_get_height paddedState) = some st' ∧
      (∀ fuelA stA, gop_swap_buffers fuelA paddedState = some stA →
        ∀ x y, x < gop_get_width paddedState → y < gop_get_height paddedState →
          gop_get_index paddedState x y < paddedState.gop.FrameBufferSize / 4 →
          st'.fb (gop_get_index paddedState x y) = stA.fb (gop_get_index paddedState x y)) ∧
      (gop_get_width paddedState ≤ gop_get_pitch paddedState / 4 →
        ∀ fuelA stA, gop_swap_buffers fuelA paddedState = some stA →
          ∀ x y, x < gop_get_width paddedState → y < gop_get_height paddedState →
            st'.fb (gop_get_index paddedState x y) = stA.fb (gop_get_index paddedState x y)) ∧
      (∀ x y, gop_get_width paddedState ≤ x → x < gop_get_pitch paddedState / 4 →
        y < gop_get_height paddedState →
        st'.fb (gop_get_index paddedState x y) = paddedState.fb (gop_get_index paddedState x y)) ∧
      (paddedState.gop.FrameBufferSize / 4 < 2 ^ 32 →
        ∀ fuelA, paddedState.gop.FrameBufferSize / 4 ≤ fuelA →
          ∃ stA, gop_swap_buffers fuelA paddedState = some stA)) ∧
    (gop_swap_buffers_at 4 paddedState 0 0 (gop_get_width paddedState)
      (gop_get_height paddedState)).map (fun st' => (List.range 8).map st'.fb)
      = some [255, 255, 255, 0, 255, 255, 255, 0] ∧
    (gop_swap_buffers 8 paddedState).map (fun st' => (List.range 8).map st'.fb)
      = some (List.replicate 8 255) :=
  ⟨by decide,
   full_flush_agrees paddedState 4 (by decide) (by decide) (by decide) (by decide),
   by decide,
   by decide⟩

/-- C17: flush_all() (gop_swap_buffers) and flush_region (gop_swap_buffers_at), for
every state and arguments, leave the shadow buffer, the recorded mode count, the mode
cursor and the current mode record unchanged; flush_region over an empty rectangle
(x0 ≥ x1 or y0 ≥ y1) also leaves the hardware framebuffer unchanged.  flush_region
returns for all UINT32 arguments once the fuel covers both extents. -/
theorem flush_frame (st : State) :
    (∀ fuel st', gop_swap_buffers fuel st = some st' →
      st'.backbuffer = st.backbuffer ∧ st'.num_modes = st.num_modes ∧
      st'.next_mode = st.next_mode ∧ st'.gop = st.gop) ∧
    (∀ fuel x0 y0 x1 y1 st', gop_swap_buffers_at fuel st x0 y0 x1 y1 = some st' →
      st'.backbuffer = st.backbuffer ∧ st'.num_modes = st.num_modes ∧
      st'.next_mode = st.next_mode ∧ st'.gop = st.gop ∧
      ((x0 ≥ x1 ∨ y0 ≥ y1) → y1 < 2 ^ 32 → st'.fb = st.fb)) ∧
    (∀ fuel x0 y0 x1 y1, x1 < 2 ^ 32 → y1 < 2 ^ 32 → x1 - x0 ≤ fuel → y1 - y0 ≤ fuel →
      ∃ st', gop_swap_buffers_at fuel st x0 y0 x1 y1 = some st') := by
  refine ⟨?_, ?_, ?_⟩
  · intro fuel st' h
    obtain ⟨fb', hst, _, _⟩ := gop_swap_buffers_some fuel st st' h
    rw [hst]
    exact ⟨rfl, rfl, rfl, rfl⟩
  · intro fuel x0 y0 x1 y1 st' h
    obtain ⟨fb', hst⟩ := gop_swap_buffers_at_some fuel st st' x0 y0 x1 y1 h
    refine ⟨by rw [hst], by rw [hst], by rw [hst], by rw [hst], ?_⟩
    intro hempty hy1
    exact gop_swap_buffers_at_empty fuel st st' x0 y0 x1 y1 hy1 hempty h
  · intro fuel x0 y0 x1 y1 hx1 hy1 hfx hfy
    obtain ⟨fb', hrun, _⟩ := gop_swap_buffers_at_spec st x0 y0 x1 y1 fuel hx1 hy1 hfx hfy
    exact ⟨_, hrun⟩

/-- On the 4 × 4 example, with cursor 1 and mode count 1: flush_all and
flush_region(1,1,3,3) keep the shadow buffer, mode count, cursor and mode; the empty
rectangles (2,1,2,3) and (1,3,3,3) also keep the sixteen hardware slots at 0x00. -/
theorem flush_frame_witness :
    (∀ st', gop_swap_buffers 16 example4x4 = some st' →
      st'.backbuffer = example4x4.backbuffer ∧ st'.num_modes = example4x4.num_modes ∧
      st'.next_mode = example4x4.next_mode ∧ st'.gop = example4x4.gop) ∧
    (∀ st', gop_swap_buffers_at 2 example4x4 2 1 2 3 = some st' →
      st'.backbuffer = example4x4.backbuffer ∧ st'.num_modes = example4x4.num_modes ∧
      st'.next_mode = example4x4.next_mode ∧ st'.gop = example4x4.gop ∧
      (((2 : Nat) ≥ 2 ∨ (1 : Nat) ≥ 3) → 3 < 2 ^ 32 → st'.fb = example4x4.fb)) ∧
    (∃ st', gop_swap_buffers_at 2 example4x4 2 1 2 3 = some st') ∧
    (gop_swap_buffers_at 2 example4x4 2 1 2 3).map (fun st' => (List.range 16).map st'.fb)
      = some (List.replicate 16 0) ∧
    (gop_swap_buffers_at 2 example4x4 1 3 3 3).map (fun st' => (List.range 16).map st'.fb)
      = some (List.replicate 16 0) ∧
    (gop_swap_buffers_at 2 example4x4 1 1 3 3).map
      (fun st' => ((List.range 16).map st'.backbuffer, st'.num_modes, st'.next_mode))
      = some (List.replicate 16 255, 1, 1) :=
  ⟨(flush_frame example4x4).1 16,
   (flush_frame example4x4).2.1 2 2 1 2 3,
   (flush_frame example4x4).2.2 2 2 1 2 3 (by decide) (by decide) (by decide) (by decide),
   by decide,
   by decide,
   by decide⟩

end Gop
